import Mathlib

/-!
Shallow embedding of the Omi card game server (`src/index.js`).

Modelling conventions:
* JavaScript `null` becomes `Option.none`; nullable hand slots are `Option Card`.
* Display names and socket ids are abstracted to `Nat` (JS strings are opaque
  identifiers here; socket ids are encoded as positive naturals, `0` standing
  for a JS-falsy id, which never occurs for a real connection).
* `Date.now()` timestamps become `Nat` values supplied with each event.
* The `-1` sentinels (`trumpSelector`, `lastTrickWinner`, `findPositionForTeam`)
  are kept as `Int` where the source stores them in a field, and `Option Nat`
  where the source immediately branches on `=== -1`.
* `Math.random` shuffling is nondeterministic: events that trigger a deal carry
  the shuffled deck as an oracle input.
* The transport layer (socket.io) is out of scope; handlers become pure
  functions from an event and a room state to a new room state plus the
  outbound notifications the claims mention.
* `Room.pausedFrom` is a ghost field recording which phase a pause interrupted;
  it never influences any computation (the source recovers this information
  from `trump === null`, which we prove agrees with the ghost field).
-/

namespace Omi

/-- The four suits (source: `const suits = [...]`). -/
inductive Suit where
  | hearts | diamonds | clubs | spades
deriving DecidableEq

/-- The eight ranks 7..Ace (source: `const ranks = [...]`). -/
inductive Rank where
  | r7 | r8 | r9 | r10 | jack | queen | king | ace
deriving DecidableEq

/-- A card (source: `{ suit, rank }`). -/
structure Card where
  suit : Suit
  rank : Rank
deriving DecidableEq

def suitList : List Suit := [.hearts, .diamonds, .clubs, .spades]

def rankList : List Rank := [.r7, .r8, .r9, .r10, .jack, .queen, .king, .ace]

/-- Source `createDeck`: for each suit, for each rank, push `{suit, rank}`. -/
def createDeck : List Card :=
  (suitList.map (fun s => rankList.map (fun r => Card.mk s r))).flatten

/-- Source `rankValues` lookup table inside `getCardValue`. -/
def rankValues : Rank → Nat
  | .r7 => 1 | .r8 => 2 | .r9 => 3 | .r10 => 4
  | .jack => 5 | .queen => 6 | .king => 7 | .ace => 8

/-- Source `getCardValue(card, trump)`: rank value, plus 10 if the card's suit
is the trump suit.  `trump` is nullable in the source, hence `Option Suit`. -/
def getCardValue (card : Card) (trump : Option Suit) : Nat :=
  let value := rankValues card.rank
  if some card.suit = trump then value + 10 else value

/-- One entry of a trick (source: objects pushed onto `room.currentTrick`). -/
structure TrickEntry where
  playerIndex : Nat
  playerName : Nat
  card : Card
deriving DecidableEq

/-- Source `isValidPlay(card, hand, currentTrick, trump)`. -/
def isValidPlay (card : Card) (hand : List (Option Card))
    (currentTrick : List TrickEntry) (_trump : Option Suit) : Bool :=
  match currentTrick with
  | [] => true
  | t0 :: _ =>
    let leadSuit := t0.card.suit
    let cardsOfLeadSuit := hand.filter fun c =>
      match c with
      | some c => decide (c.suit = leadSuit)
      | none => false
    if cardsOfLeadSuit.length > 0 then decide (card.suit = leadSuit) else true

/-- The index-collecting loop `hand.forEach((card, index) => { if (card !==
null) playableCards.push(index) })` of `getPlayableCards`. -/
def nonNullIndices (hand : List (Option Card)) : List Nat :=
  hand.enum.filterMap fun ic => if ic.2.isSome then some ic.1 else none

/-- The index-collecting loop `hand.forEach((card, index) => { if (card &&
card.suit === leadSuit) leadSuitCardIndices.push(index) })`. -/
def leadSuitIndices (hand : List (Option Card)) (leadSuit : Suit) : List Nat :=
  hand.enum.filterMap fun ic =>
    match ic.2 with
    | some card => if card.suit = leadSuit then some ic.1 else none
    | none => none

/-- Source `getPlayableCards(hand, currentTrick, trump)`: the list of hand-slot
indices that are legal to play. -/
def getPlayableCards (hand : List (Option Card)) (currentTrick : List TrickEntry)
    (_trump : Option Suit) : List Nat :=
  match currentTrick with
  | [] => nonNullIndices hand
  | t0 :: _ =>
    let leadSuitCardIndices := leadSuitIndices hand t0.card.suit
    if leadSuitCardIndices.length > 0 then
      leadSuitCardIndices
    else
      nonNullIndices hand

/-- JS `array.reduce((highest, current) => cond ? current : highest)` with no
initial value: fold from the first element. -/
def pickHighest (trump : Option Suit) (first : TrickEntry)
    (rest : List TrickEntry) : TrickEntry :=
  rest.foldl
    (fun highest current =>
      if getCardValue current.card trump > getCardValue highest.card trump then
        current
      else highest)
    first

/-- Source `getTrickWinner(trick, trump)`.  The source crashes on an empty
trick (reduce of an empty array); we return `none` there. -/
def getTrickWinner (trick : List TrickEntry) (trump : Option Suit) :
    Option TrickEntry :=
  match trick with
  | [] => none
  | t0 :: _ =>
    let leadSuit := t0.card.suit
    let trumpCards := trick.filter fun t => decide (some t.card.suit = trump)
    match trumpCards with
    | w :: ws => some (pickHighest trump w ws)
    | [] =>
      match trick.filter (fun t => decide (t.card.suit = leadSuit)) with
      | w :: ws => some (pickHighest trump w ws)
      | [] => none

/-- The two teams. -/
inductive Team where
  | A | B
deriving DecidableEq

/-- Source `TEAM_POSITIONS`: Team A sits at 0 and 2, Team B at 1 and 3. -/
def teamPositions : Team → List Nat
  | .A => [0, 2]
  | .B => [1, 3]

/-- Source `getTeamForPosition(position)`: `TEAM_POSITIONS.A.includes(position)`.
Takes an `Int` because it is also applied to the `-1`-initialized
`trumpSelector` field. -/
def getTeamForPosition (position : Int) : Team :=
  if position = 0 ∨ position = 2 then .A else .B

/-- The `gameState` strings of the source. -/
inductive Phase where
  | waiting | trump_selection | playing | completed | paused
deriving DecidableEq

/-- Source `room.scores = { teamA, teamB }`. -/
structure Scores where
  teamA : Nat
  teamB : Nat
deriving DecidableEq

/-- A seated player (source: the objects stored in `room.players`). -/
structure Player where
  id : Nat
  name : Nat
  team : Team
  hand : List (Option Card)
  connected : Bool
  position : Nat
  lastSeen : Nat
deriving DecidableEq

/-- The room aggregate (source `initializeRoom` object).  `pausedFrom` is a
ghost field, see the module comment. -/
structure Room where
  id : Nat
  players : List (Option Player)
  gameState : Phase
  deck : List Card
  trump : Option Suit
  trumpSelector : Int
  currentPlayerIndex : Nat
  currentTrick : List TrickEntry
  tricksWon : List Nat
  scores : Scores
  round : Nat
  currentRoundIndex : Nat
  lastTrickWinner : Int
  createdAt : Nat
  lastActivity : Nat
  pausedFrom : Option Phase
deriving DecidableEq

/-- Source `initializeRoom(roomId)`. -/
def initializeRoom (roomId : Nat) (now : Nat) : Room where
  id := roomId
  players := [none, none, none, none]
  gameState := .waiting
  deck := []
  trump := none
  trumpSelector := -1
  currentPlayerIndex := 0
  currentTrick := []
  tricksWon := [0, 0, 0, 0]
  scores := ⟨0, 0⟩
  round := 1
  currentRoundIndex := 0
  lastTrickWinner := -1
  createdAt := now
  lastActivity := now
  pausedFrom := none

/-- The seat-availability test of `findPositionForTeam`:
`!room.players[pos] || !room.players[pos].id` (id `0` encodes a falsy id). -/
def seatFree (room : Room) (pos : Nat) : Bool :=
  match room.players.get? pos with
  | some (some p) => decide (p.id = 0)
  | _ => true

/-- Source `findPositionForTeam(room, preferredTeam)`; `-1` becomes `none`. -/
def findPositionForTeam (room : Room) (preferredTeam : Team) : Option Nat :=
  match (teamPositions preferredTeam).filter (seatFree room) with
  | p :: _ => some p
  | [] =>
    let otherTeam := if preferredTeam = Team.A then Team.B else Team.A
    match (teamPositions otherTeam).filter (seatFree room) with
    | p :: _ => some p
    | [] => none

/-- Payload of a join: `{ id: socket.id, name }`. -/
structure PlayerData where
  id : Nat
  name : Nat
deriving DecidableEq

/-- Result object of `addPlayerToRoom`. -/
structure JoinResult where
  success : Bool
  message : Option String
  position : Option Nat
  isReconnection : Bool
deriving DecidableEq

/-- Source `addPlayerToRoom(roomId, playerData, preferredTeam, isReconnect)`,
restricted to one existing room (room creation and the `MAX_ROOMS` cap live in
the registry, which is not involved in any claim). -/
def addPlayerToRoom (room : Room) (playerData : PlayerData)
    (preferredTeam : Team) (isReconnect : Bool) (now : Nat) :
    Room × JoinResult :=
  let room := { room with lastActivity := now }
  let reconnectHit :=
    if isReconnect then
      room.players.findIdx? fun op =>
        op.any fun p => decide (p.name = playerData.name) && !p.connected
    else none
  match reconnectHit with
  | some existingPlayerIndex =>
    match room.players.get? existingPlayerIndex with
    | some (some p) =>
      let p := { p with id := playerData.id, connected := true, lastSeen := now }
      ({ room with players := room.players.set existingPlayerIndex (some p) },
       { success := true, message := none,
         position := some existingPlayerIndex, isReconnection := true })
    | _ =>
      -- unreachable: `findIdx?` only returns indices whose entry matched
      (room, { success := false, message := none, position := none,
               isReconnection := false })
  | none =>
    let duplicateConnected :=
      isReconnect &&
        (room.players.any fun op =>
          op.any fun p => decide (p.name = playerData.name) && p.connected)
    if duplicateConnected then
      (room, { success := false,
               message := some "Player with this name is already connected",
               position := none, isReconnection := false })
    else
      match findPositionForTeam room preferredTeam with
      | none =>
        (room, { success := false, message := some "Room is full",
                 position := none, isReconnection := false })
      | some position =>
        let nameTaken :=
          (room.players.filter fun op => op.any (·.connected)).any fun op =>
            op.any fun p => decide (p.name = playerData.name)
        if nameTaken then
          (room, { success := false, message := some "Name already taken",
                   position := none, isReconnection := false })
        else
          let newPlayer : Player :=
            { id := playerData.id, name := playerData.name,
              team := getTeamForPosition (position : Int), hand := [],
              connected := true, position := position, lastSeen := now }
          ({ room with players := room.players.set position (some newPlayer) },
           { success := true, message := none, position := some position,
             isReconnection := false })

/-- Public seat info sent to clients. -/
structure PublicInfo where
  name : Nat
  team : Team
  position : Nat
  connected : Bool
deriving DecidableEq

/-- The snapshot object built by `getFullGameStateForPlayer`. -/
structure Snapshot where
  gameState : Phase
  trump : Option Suit
  currentPlayerIndex : Nat
  position : Nat
  hand : List (Option Card)
  isYourTurn : Bool
  playableCards : List Nat
  currentTrick : List TrickEntry
  scores : Scores
  tricksWon : List Nat
  playerNames : List (Option Nat)
  playersInfo : List (Option PublicInfo)
deriving DecidableEq

/-- Source `getFullGameStateForPlayer(room, playerPosition)`. -/
def getFullGameStateForPlayer (room : Room) (playerPosition : Nat) :
    Option Snapshot :=
  match room.players.get? playerPosition with
  | some (some player) =>
    some
      { gameState := room.gameState
        trump := room.trump
        currentPlayerIndex := room.currentPlayerIndex
        position := playerPosition
        hand := player.hand
        isYourTurn :=
          decide (room.currentPlayerIndex = playerPosition) &&
            decide (room.gameState = Phase.playing)
        playableCards :=
          if room.currentPlayerIndex = playerPosition ∧
              room.gameState = Phase.playing then
            getPlayableCards player.hand room.currentTrick room.trump
          else []
        currentTrick := room.currentTrick
        scores := room.scores
        tricksWon := room.tricksWon
        playerNames := room.players.map (Option.map Player.name)
        playersInfo := (room.players.enum.map fun iop =>
          iop.2.map fun p =>
            PublicInfo.mk p.name p.team iop.1 p.connected) }
  | _ => none

/-- Source `dealCardsForTrumpSelection(room)`: the shuffled deck is an oracle
input.  `room.deck` aliases the freshly shuffled array, so the selector's
`splice(0, 4)` removes those four cards from `room.deck` as well. -/
def dealCardsForTrumpSelection (room : Room) (shuffled : List Card) : Room :=
  match room.players.get? room.currentPlayerIndex with
  | some (some trumpSelector) =>
    let trumpSelector :=
      { trumpSelector with hand := (shuffled.take 4).map some }
    let players := room.players.set room.currentPlayerIndex (some trumpSelector)
    let players := players.enum.map fun iop =>
      if iop.1 = room.currentPlayerIndex then iop.2
      else iop.2.map fun p => { p with hand := [] }
    { room with deck := shuffled.drop 4, players := players }
  | _ => { room with deck := shuffled }

/-- Source `dealRemainingCards(room)`: iterate the seats in order; the trump
selector (already holding 4 cards) receives 4 more from the front of the
deck, every other seat receives 8. -/
def dealRemainingCards (room : Room) : Room :=
  let start : List (Option Player) × List Card := ([], room.deck)
  let result := room.players.enum.foldl
    (fun acc iop =>
      match iop.2 with
      | none => (acc.1 ++ [none], acc.2)
      | some p =>
        if iop.1 = room.currentPlayerIndex then
          let newCards := acc.2.take 4
          (acc.1 ++ [some { p with hand := p.hand ++ newCards.map some }],
           acc.2.drop 4)
        else
          (acc.1 ++ [some { p with hand := (acc.2.take 8).map some }],
           acc.2.drop 8))
    start
  { room with players := result.1, deck := result.2 }

/-- Source `startGame(roomId)`: returns the updated room and the boolean the
source returns.  The shuffled deck for `dealCardsForTrumpSelection` is an
oracle input. -/
def startGame (room : Room) (shuffled : List Card) (now : Nat) : Room × Bool :=
  let connectedPlayers := room.players.filter (·.isSome)
  if connectedPlayers.length ≠ 4 then (room, false)
  else
    let room :=
      { room with
        gameState := .trump_selection
        currentRoundIndex := 0
        currentPlayerIndex := 0
        trumpSelector := 0
        scores := ⟨0, 0⟩
        tricksWon := [0, 0, 0, 0]
        lastActivity := now }
    (dealCardsForTrumpSelection room shuffled, true)

/-- The `roundResult` object of `checkRoundComplete`. -/
structure RoundResult where
  winningTeam : Option Team
  pointsAwarded : Nat
  teamATricks : Nat
  teamBTricks : Nat
  trumpTeam : Team
  defendingTeam : Team
deriving DecidableEq

/-- The status object returned by `checkRoundComplete`. -/
structure RoundStatus where
  roundComplete : Bool
  gameComplete : Bool
  roundResult : Option RoundResult
deriving DecidableEq

/-- Source `room.tricksWon.reduce((a, b) => a + b, 0)`. -/
def tricksSum (l : List Nat) : Nat := l.foldl (· + ·) 0

/-- Indexing `room.tricksWon[i]` (in-range in every reachable state). -/
def trickCount (room : Room) (i : Nat) : Nat := room.tricksWon.getD i 0

/-- Source `checkRoundComplete(room)`: scoring at the end of a deal, match
completion at 10 points, otherwise rotation to the next deal. -/
def checkRoundComplete (room : Room) : Room × RoundStatus :=
  let tricksExpected := 8
  let tricksPlayed := tricksSum room.tricksWon
  if tricksPlayed ≥ tricksExpected then
    let teamATricks := trickCount room 0 + trickCount room 2
    let teamBTricks := trickCount room 1 + trickCount room 3
    let trumpTeam := getTeamForPosition room.trumpSelector
    let defendingTeam := if trumpTeam = Team.A then Team.B else Team.A
    let awarded :=
      if teamATricks > teamBTricks then
        let pointsAwarded :=
          if defendingTeam = Team.A ∧ teamATricks = tricksExpected then 2 else 1
        (some Team.A, pointsAwarded,
         { room.scores with teamA := room.scores.teamA + pointsAwarded })
      else if teamBTricks > teamATricks then
        let pointsAwarded :=
          if defendingTeam = Team.B ∧ teamBTricks = tricksExpected then 2 else 1
        (some Team.B, pointsAwarded,
         { room.scores with teamB := room.scores.teamB + pointsAwarded })
      else
        (none, 0, room.scores)
    let winningTeam := awarded.1
    let pointsAwarded := awarded.2.1
    let room := { room with scores := awarded.2.2 }
    let roundResult : RoundResult :=
      { winningTeam := winningTeam, pointsAwarded := pointsAwarded,
        teamATricks := teamATricks, teamBTricks := teamBTricks,
        trumpTeam := trumpTeam, defendingTeam := defendingTeam }
    let targetScore : Nat := 10
    if room.scores.teamA ≥ targetScore ∨ room.scores.teamB ≥ targetScore then
      ({ room with gameState := .completed },
       { roundComplete := true, gameComplete := true,
         roundResult := some roundResult })
    else
      let nextIndex : Nat := (room.currentPlayerIndex + 1) % 4
      ({ room with
          tricksWon := [0, 0, 0, 0]
          currentTrick := []
          trump := none
          gameState := .trump_selection
          currentPlayerIndex := nextIndex
          trumpSelector := (nextIndex : Int) },
       { roundComplete := true, gameComplete := false,
         roundResult := some roundResult })
  else
    (room, { roundComplete := false, gameComplete := false,
             roundResult := none })

/-- The outbound notifications the claims are about. -/
inductive Output where
  | errorMsg (message : String)
  | gameInterrupted (disconnectedPlayer : Nat)
  | gameOver (winner : String) (finalScores : Scores)
      (roundResult : Option RoundResult)
deriving DecidableEq

/-- Number of seats that currently hold a connected player
(`room.players.filter(p => p && p.connected).length`). -/
def connectedCount (room : Room) : Nat :=
  (room.players.filter fun op => op.any (·.connected)).length

/-- The `joinRoom` socket handler (state part): add or re-add the player, then
either resume a paused game (reconnection branch) or start the game once four
players are connected (new-join branch).  `shuffled` is the oracle for
whichever deal the handler may perform. -/
def stepJoin (room : Room) (sid name : Nat) (team : Team) (isReconnect : Bool)
    (shuffled : List Card) (now : Nat) : Room :=
  let result := addPlayerToRoom room ⟨sid, name⟩ team isReconnect now
  let room := result.1
  if !result.2.success then room
  else if result.2.isReconnection then
    if room.gameState = Phase.paused ∧ connectedCount room ≥ 4 then
      if room.trump = none then
        let room := { room with gameState := .trump_selection, pausedFrom := none }
        match room.players.get? room.currentPlayerIndex with
        | some (some trumpSelector) =>
          if trumpSelector.connected then
            if trumpSelector.hand.length = 0 then
              dealCardsForTrumpSelection room shuffled
            else room
          else room
        | _ => room
      else { room with gameState := .playing, pausedFrom := none }
    else room
  else
    if connectedCount room = 4 ∧ room.gameState = Phase.waiting then
      (startGame room shuffled now).1
    else room

/-- The `selectTrump` socket handler (state part). -/
def stepSelectTrump (room : Room) (sid : Nat) (trump : Suit) (now : Nat) :
    Room :=
  if room.gameState ≠ Phase.trump_selection then room
  else
    match room.players.findIdx? (fun op => op.any fun p => decide (p.id = sid)) with
    | none => room
    | some playerIndex =>
      if playerIndex ≠ room.currentPlayerIndex then room
      else
        let room :=
          { room with
              trump := some trump
              trumpSelector := (playerIndex : Int)
              gameState := .playing
              lastActivity := now }
        dealRemainingCards room

/-- The `playCard` socket handler: validation, trick bookkeeping, trick
resolution, and round/game completion, with the notifications the claims
mention. -/
def stepPlayCard (room : Room) (sid : Nat) (cardIndex : Nat) (now : Nat) :
    Room × List Output :=
  if room.gameState ≠ Phase.playing then
    (room, [.errorMsg "Game not in playing state"])
  else
    match room.players.findIdx? (fun op => op.any fun p => decide (p.id = sid)) with
    | none => (room, [.errorMsg "Player not found"])
    | some playerIndex =>
      if playerIndex ≠ room.currentPlayerIndex then
        (room, [.errorMsg "Not your turn"])
      else
        match room.players.get? playerIndex with
        | some (some player) =>
          match player.hand.getD cardIndex none with
          | none => (room, [.errorMsg "Invalid card - card not found"])
          | some card =>
            if !isValidPlay card player.hand room.currentTrick room.trump then
              (room, [.errorMsg "Invalid card!"])
            else
              let room := { room with lastActivity := now }
              let trick := room.currentTrick ++
                [{ playerIndex := playerIndex, playerName := player.name,
                   card := card }]
              let player := { player with hand := player.hand.set cardIndex none }
              let room :=
                { room with
                    currentTrick := trick
                    players := room.players.set playerIndex (some player) }
              if trick.length = 4 then
                match getTrickWinner trick room.trump with
                | some winner =>
                  let winnerIndex := winner.playerIndex
                  let room :=
                    { room with
                        tricksWon := room.tricksWon.set winnerIndex
                          (room.tricksWon.getD winnerIndex 0 + 1)
                        currentTrick := []
                        currentPlayerIndex := winnerIndex
                        lastTrickWinner := (winnerIndex : Int) }
                  let checked := checkRoundComplete room
                  let room := checked.1
                  if checked.2.gameComplete then
                    let finalWinner :=
                      if room.scores.teamA > room.scores.teamB then "Team A"
                      else if room.scores.teamB > room.scores.teamA then "Team B"
                      else "Tie"
                    (room, [.gameOver finalWinner room.scores checked.2.roundResult])
                  else (room, [])
                | none => (room, [])
              else
                ({ room with currentPlayerIndex := (room.currentPlayerIndex + 1) % 4 },
                 [])
        | _ => (room, [.errorMsg "Player not found"])

/-- The `disconnect` socket handler (state part): mark the seat disconnected
and pause an in-progress game. -/
def stepDisconnect (room : Room) (sid : Nat) (now : Nat) : Room × List Output :=
  match room.players.findIdx? (fun op => op.any fun p => decide (p.id = sid)) with
  | none => (room, [])
  | some playerIndex =>
    match room.players.get? playerIndex with
    | some (some p) =>
      let p := { p with connected := false, lastSeen := now }
      let room :=
        { room with
            players := room.players.set playerIndex (some p)
            lastActivity := now }
      if (room.gameState = Phase.playing ∨ room.gameState = Phase.trump_selection)
          ∧ connectedCount room ≥ 1 then
        ({ room with gameState := .paused, pausedFrom := some room.gameState },
         [.gameInterrupted p.name])
      else (room, [])
    | _ => (room, [])

def PLAYER_TIMEOUT : Nat := 5 * 60 * 1000

/-- The seat-eviction part of `checkRoomHealth`: reset seats whose player has
been disconnected longer than `PLAYER_TIMEOUT`. -/
def stepEvict (room : Room) (now : Nat) : Room :=
  let players := room.players.map fun op =>
    match op with
    | some p =>
      if !p.connected && decide (now - p.lastSeen > PLAYER_TIMEOUT) then none
      else some p
    | none => none
  if players = room.players then room
  else { room with players := players, lastActivity := now }

/-- The events a room can receive.  Decks are shuffle oracles (§ module
comment); `dealTimer` is the deferred `dealCardsForTrumpSelection` callback
scheduled after a completed deal. -/
inductive GEvent where
  | join (sid name : Nat) (team : Team) (isReconnect : Bool)
      (shuffled : List Card) (now : Nat)
  | selectTrump (sid : Nat) (trump : Suit) (now : Nat)
  | playCard (sid : Nat) (cardIndex : Nat) (now : Nat)
  | disconnect (sid : Nat) (now : Nat)
  | dealTimer (shuffled : List Card)
  | evict (now : Nat)

/-- One atomic handler step (§5 of the spec: handlers never interleave). -/
def step (ev : GEvent) (room : Room) : Room × List Output :=
  match ev with
  | .join sid name team isReconnect shuffled now =>
    (stepJoin room sid name team isReconnect shuffled now, [])
  | .selectTrump sid trump now => (stepSelectTrump room sid trump now, [])
  | .playCard sid cardIndex now => stepPlayCard room sid cardIndex now
  | .disconnect sid now => stepDisconnect room sid now
  | .dealTimer shuffled => (dealCardsForTrumpSelection room shuffled, [])
  | .evict now => (stepEvict room now, [])

/-- Run a sequence of events. -/
def runEvents (evs : List GEvent) (room : Room) : Room :=
  evs.foldl (fun r e => (step e r).1) room

/-- A room state is reachable when some event sequence produces it from a
freshly initialized room. -/
def Reachable (r : Room) : Prop :=
  ∃ roomId now evs, runEvents evs (initializeRoom roomId now) = r

/-! ### Reachability invariant -/

/-- Every seat holds a connected player. -/
def allConnected (r : Room) : Prop :=
  ∀ op ∈ r.players, ∃ p, op = some p ∧ p.connected = true

/-- The inductive invariant of reachable rooms: four seats; an in-progress
game has all four seats connected; the trump/phase discipline (trump is set
exactly in `playing`, `completed`, and pauses of `playing`); and scores stay
below the target of 10 until the match completes. -/
def Inv (r : Room) : Prop :=
  r.players.length = 4 ∧
  ((r.gameState = .trump_selection ∨ r.gameState = .playing) → allConnected r) ∧
  (r.gameState = .waiting → r.trump = none) ∧
  (r.gameState = .trump_selection → r.trump = none) ∧
  (r.gameState = .playing → r.trump ≠ none) ∧
  (r.gameState = .completed → r.trump ≠ none) ∧
  (r.gameState = .paused →
    (r.pausedFrom = some .playing ∨ r.pausedFrom = some .trump_selection) ∧
      (r.trump ≠ none ↔ r.pausedFrom = some .playing)) ∧
  (r.gameState ≠ .completed → r.scores.teamA < 10 ∧ r.scores.teamB < 10)

/-! ### A concrete full match

A scripted six-deal match used as a concrete reachable state: four players
join, and in every deal the seat-0 player holds all eight hearts, hearts is
trump, and seat 0 takes all eight tricks.  Deal 1 (trump selected by seat 0,
the trump team) awards 1 point to Team A; each later deal is selected by seat
1 (seat 0 won the last trick, so seat `(0+1) % 4 = 1` selects next) and is a
defending-team sweep worth 2 points, so Team A's score runs 1, 3, 5, 7, 9, 11
and the match completes after deal 6. -/

def suitCards (s : Suit) : List Card := rankList.map fun r => Card.mk s r

/-- Shuffle oracle for deal 1 (selector seat 0): seat 0 receives all hearts,
seat 1 all diamonds, seat 2 all clubs, seat 3 all spades. -/
def deckDeal1 : List Card := createDeck

/-- Shuffle oracle for deals 2..6 (selector seat 1): seat 1 receives all
diamonds (4 up front, 4 after trump selection), seat 0 all hearts, seat 2 all
clubs, seat 3 all spades. -/
def deckDealK : List Card :=
  (suitCards .diamonds).take 4 ++ suitCards .hearts ++
    (suitCards .diamonds).drop 4 ++ suitCards .clubs ++ suitCards .spades

def trickPlays (sids : List Nat) (cardIndex : Nat) : List GEvent :=
  sids.map fun s => .playCard s cardIndex 0

/-- Deal 1: seat 0 selects hearts and leads every trick. -/
def deal1Events : List GEvent :=
  GEvent.selectTrump 1 .hearts 0 ::
    ((List.range 8).map fun t => trickPlays [1, 2, 3, 4] t).flatten

/-- Deals 2..6: the deferred deal fires, seat 1 selects hearts and leads the
first trick, seat 0 trumps it and leads the remaining seven. -/
def dealKEvents : List GEvent :=
  [GEvent.dealTimer deckDealK, GEvent.selectTrump 2 .hearts 0] ++
    trickPlays [2, 3, 4, 1] 0 ++
    ((List.range 7).map fun t => trickPlays [1, 2, 3, 4] (t + 1)).flatten

/-- Four players join; the fourth join starts the game with `deckDeal1`. -/
def joinEvents : List GEvent :=
  [ .join 1 101 .A false [] 0, .join 2 102 .B false [] 0,
    .join 3 103 .A false [] 0, .join 4 104 .B false deckDeal1 0 ]

def fullMatchScript : List GEvent :=
  joinEvents ++ deal1Events ++ (List.replicate 5 dealKEvents).flatten

/-- The room state after the scripted match: completed, Team A 11 points. -/
def omiFinalRoom : Room := runEvents fullMatchScript (initializeRoom 1 0)

/-- The room state just before the final card of the scripted match. -/
def omiPenultimateRoom : Room :=
  runEvents fullMatchScript.dropLast (initializeRoom 1 0)

/-- A deal-complete room in which the last trick was won by seat 2 while the
trump selector was seat 0 (any trick can be won by any seat, so this
combination arises in real play): Team A took all 8 tricks, split 3 to seat 0
and 5 to seat 2. -/
def roomDealEnd : Room :=
  { initializeRoom 1 0 with
      gameState := .playing
      trump := some .hearts
      trumpSelector := 0
      currentPlayerIndex := 2
      tricksWon := [3, 0, 5, 0] }

/-- A room with one disconnected seat (name 7), used for reconnection. -/
def roomReconnect : Room :=
  { initializeRoom 2 0 with
      players := [some ⟨1, 7, Team.A, [some (Card.mk .hearts .ace), none],
        false, 0, 5⟩, none, none, none] }

/-- A fully seated room about to be dealt (trump selector seat 0). -/
def roomFourSeats : Room :=
  { initializeRoom 3 0 with
      players := [some ⟨1, 1, Team.A, [], true, 0, 0⟩,
        some ⟨2, 2, Team.B, [], true, 1, 0⟩,
        some ⟨3, 3, Team.A, [], true, 2, 0⟩,
        some ⟨4, 4, Team.B, [], true, 3, 0⟩] }

/-! ## Helper lemmas: card rule engine -/

theorem mem_nonNullIndices {hand : List (Option Card)} {i : Nat} :
    i ∈ nonNullIndices hand ↔ ∃ c, hand.get? i = some (some c) := by
  simp only [nonNullIndices, List.mem_filterMap]
  constructor
  · rintro ⟨⟨j, oc⟩, hmem, hf⟩
    rw [List.mem_enum_iff_get?] at hmem
    cases oc with
    | none => simp at hf
    | some c =>
      simp only [Option.isSome_some, if_true, Option.some.injEq] at hf
      exact ⟨c, by rw [← hf]; exact hmem⟩
  · rintro ⟨c, hc⟩
    exact ⟨(i, some c), List.mem_enum_iff_get?.mpr hc, rfl⟩

theorem mem_leadSuitIndices {hand : List (Option Card)} {s : Suit} {i : Nat} :
    i ∈ leadSuitIndices hand s ↔
      ∃ c, hand.get? i = some (some c) ∧ c.suit = s := by
  simp only [leadSuitIndices, List.mem_filterMap]
  constructor
  · rintro ⟨⟨j, oc⟩, hmem, hf⟩
    rw [List.mem_enum_iff_get?] at hmem
    cases oc with
    | none => simp at hf
    | some c =>
      by_cases hs : c.suit = s
      · simp only [hs, if_true, Option.some.injEq] at hf
        exact ⟨c, by rw [← hf]; exact hmem, hs⟩
      · simp [hs] at hf
  · rintro ⟨c, hc, hs⟩
    exact ⟨(i, some c), List.mem_enum_iff_get?.mpr hc, by simp [hs]⟩

theorem leadSuitIndices_pos {hand : List (Option Card)} {s : Suit}
    (h : ∃ j c, hand.get? j = some (some c) ∧ c.suit = s) :
    (leadSuitIndices hand s).length > 0 := by
  obtain ⟨j, c, hc, hs⟩ := h
  have : j ∈ leadSuitIndices hand s := mem_leadSuitIndices.mpr ⟨c, hc, hs⟩
  exact List.length_pos.mpr (List.ne_nil_of_mem this)

theorem leadSuitIndices_nil {hand : List (Option Card)} {s : Suit}
    (h : ¬ ∃ j c, hand.get? j = some (some c) ∧ c.suit = s) :
    (leadSuitIndices hand s).length = 0 := by
  by_contra hne
  have hpos : (leadSuitIndices hand s).length > 0 := Nat.pos_of_ne_zero hne
  obtain ⟨j, hj⟩ := List.exists_mem_of_length_pos hpos
  obtain ⟨c, hc, hs⟩ := mem_leadSuitIndices.mp hj
  exact h ⟨j, c, hc, hs⟩

theorem rankValues_le (rk : Rank) : rankValues rk ≤ 8 := by
  cases rk <;> decide

theorem rankValues_pos (rk : Rank) : 1 ≤ rankValues rk := by
  cases rk <;> decide

theorem getCardValue_of_trump {card : Card} {trump : Suit}
    (h : card.suit = trump) :
    getCardValue card (some trump) = rankValues card.rank + 10 := by
  simp [getCardValue, h]

theorem getCardValue_of_not_trump {card : Card} {trump : Suit}
    (h : ¬ card.suit = trump) :
    getCardValue card (some trump) = rankValues card.rank := by
  simp [getCardValue, h]

theorem pickHighest_cons (trump : Option Suit) (f r : TrickEntry)
    (rs : List TrickEntry) :
    pickHighest trump f (r :: rs) =
      pickHighest trump
        (if getCardValue r.card trump > getCardValue f.card trump then r else f)
        rs := rfl

theorem pickHighest_mem (trump : Option Suit) (f : TrickEntry)
    (rest : List TrickEntry) : pickHighest trump f rest ∈ f :: rest := by
  induction rest generalizing f with
  | nil => simp [pickHighest]
  | cons r rs ih =>
    rw [pickHighest_cons]
    split
    · exact List.mem_cons_of_mem f (ih r)
    · rcases List.mem_cons.mp (ih f) with h | h
      · rw [h]; exact List.mem_cons_self f _
      · exact List.mem_cons_of_mem f (List.mem_cons_of_mem r h)

theorem pickHighest_le (trump : Option Suit) (f : TrickEntry)
    (rest : List TrickEntry) :
    ∀ e ∈ f :: rest,
      getCardValue e.card trump ≤ getCardValue (pickHighest trump f rest).card trump := by
  induction rest generalizing f with
  | nil =>
    intro e he
    rcases List.mem_cons.mp he with h | h
    · rw [h]; exact Nat.le_refl _
    · cases h
  | cons r rs ih =>
    intro e he
    rw [pickHighest_cons]
    set g := if getCardValue r.card trump > getCardValue f.card trump then r
      else f with hg
    have hgf : getCardValue f.card trump ≤ getCardValue g.card trump := by
      rw [hg]; split <;> omega
    have hgr : getCardValue r.card trump ≤ getCardValue g.card trump := by
      rw [hg]; split <;> omega
    have hgtop : getCardValue g.card trump ≤
        getCardValue (pickHighest trump g rs).card trump :=
      ih g g (List.mem_cons_self g rs)
    rcases List.mem_cons.mp he with h | he2
    · rw [h]; exact Nat.le_trans hgf hgtop
    rcases List.mem_cons.mp he2 with h | he3
    · rw [h]; exact Nat.le_trans hgr hgtop
    · exact ih g e (List.mem_cons_of_mem g he3)

theorem getTrickWinner_of_trump (t0 : TrickEntry) (ts : List TrickEntry)
    (trump : Option Suit)
    (h : ∃ e ∈ t0 :: ts, some e.card.suit = trump) :
    ∃ w, getTrickWinner (t0 :: ts) trump = some w ∧ w ∈ t0 :: ts ∧
      some w.card.suit = trump ∧
      ∀ e ∈ t0 :: ts, some e.card.suit = trump →
        getCardValue e.card trump ≤ getCardValue w.card trump := by
  obtain ⟨e, he, hs⟩ := h
  have hne : (t0 :: ts).filter (fun t => decide (some t.card.suit = trump)) ≠ [] := by
    intro h0
    have := List.filter_eq_nil.mp h0 e he
    simp [hs] at this
  match hfw : (t0 :: ts).filter (fun t => decide (some t.card.suit = trump)) with
  | [] => exact absurd hfw hne
  | w :: ws =>
    have hsub : ∀ x ∈ w :: ws, x ∈ t0 :: ts ∧ some x.card.suit = trump := by
      intro x hx
      rw [← hfw] at hx
      have := List.mem_filter.mp hx
      exact ⟨this.1, by simpa using this.2⟩
    refine ⟨pickHighest trump w ws, ?_, ?_, ?_, ?_⟩
    · unfold getTrickWinner
      simp only [hfw]
    · exact (hsub _ (pickHighest_mem trump w ws)).1
    · exact (hsub _ (pickHighest_mem trump w ws)).2
    · intro x hx hxs
      have : x ∈ w :: ws := by
        rw [← hfw]
        exact List.mem_filter.mpr ⟨hx, by simpa using hxs⟩
      exact pickHighest_le trump w ws x this

theorem getTrickWinner_of_no_trump (t0 : TrickEntry) (ts : List TrickEntry)
    (trump : Option Suit)
    (h : ∀ e ∈ t0 :: ts, ¬ some e.card.suit = trump) :
    ∃ w, getTrickWinner (t0 :: ts) trump = some w ∧ w ∈ t0 :: ts ∧
      w.card.suit = t0.card.suit ∧
      ∀ e ∈ t0 :: ts, e.card.suit = t0.card.suit →
        getCardValue e.card trump ≤ getCardValue w.card trump := by
  have hfil : (t0 :: ts).filter (fun t => decide (some t.card.suit = trump)) = [] :=
    List.filter_eq_nil.mpr (by intro e he; simpa using h e he)
  have ht0 : t0 ∈ (t0 :: ts).filter (fun t => decide (t.card.suit = t0.card.suit)) :=
    List.mem_filter.mpr ⟨List.mem_cons_self t0 ts, by simp⟩
  match hfl : (t0 :: ts).filter (fun t => decide (t.card.suit = t0.card.suit)) with
  | [] => rw [hfl] at ht0; cases ht0
  | w :: ws =>
    have hsub : ∀ x ∈ w :: ws, x ∈ t0 :: ts ∧ x.card.suit = t0.card.suit := by
      intro x hx
      rw [← hfl] at hx
      have := List.mem_filter.mp hx
      exact ⟨this.1, by simpa using this.2⟩
    refine ⟨pickHighest trump w ws, ?_, ?_, ?_, ?_⟩
    · unfold getTrickWinner
      simp only [hfil, hfl]
    · exact (hsub _ (pickHighest_mem trump w ws)).1
    · exact (hsub _ (pickHighest_mem trump w ws)).2
    · intro x hx hxs
      have : x ∈ w :: ws := by
        rw [← hfl]
        exact List.mem_filter.mpr ⟨hx, by simpa using hxs⟩
      exact pickHighest_le trump w ws x this

/-! ## Helper lemmas: scoring -/

/-- Closed form of `checkRoundComplete` once the deal is complete. -/
theorem checkRoundComplete_spec (room : Room)
    (h8 : tricksSum room.tricksWon ≥ 8) :
    checkRoundComplete room =
      (let tA := trickCount room 0 + trickCount room 2
       let tB := trickCount room 1 + trickCount room 3
       let defendingTeam :=
         if getTeamForPosition room.trumpSelector = Team.A then Team.B
         else Team.A
       let pts : Nat :=
         if tA > tB then (if defendingTeam = Team.A ∧ tA = 8 then 2 else 1)
         else if tB > tA then (if defendingTeam = Team.B ∧ tB = 8 then 2 else 1)
         else 0
       let newScores : Scores :=
         if tA > tB then ⟨room.scores.teamA + pts, room.scores.teamB⟩
         else if tB > tA then ⟨room.scores.teamA, room.scores.teamB + pts⟩
         else room.scores
       let winner : Option Team :=
         if tA > tB then some Team.A
         else if tB > tA then some Team.B
         else none
       let rr : RoundResult :=
         ⟨winner, pts, tA, tB, getTeamForPosition room.trumpSelector,
           defendingTeam⟩
       if newScores.teamA ≥ 10 ∨ newScores.teamB ≥ 10 then
         ({ room with scores := newScores, gameState := .completed },
          ⟨true, true, some rr⟩)
       else
         ({ room with
              scores := newScores
              tricksWon := [0, 0, 0, 0]
              currentTrick := []
              trump := none
              gameState := .trump_selection
              currentPlayerIndex := (room.currentPlayerIndex + 1) % 4
              trumpSelector := (((room.currentPlayerIndex + 1) % 4 : Nat) : Int) },
          ⟨true, false, some rr⟩)) := by
  simp only [checkRoundComplete, h8, if_true]
  split_ifs <;> rfl

/-- Below 8 tricks, `checkRoundComplete` changes nothing. -/
theorem checkRoundComplete_incomplete (room : Room)
    (h8 : ¬ tricksSum room.tricksWon ≥ 8) :
    checkRoundComplete room = (room, ⟨false, false, none⟩) := by
  simp only [checkRoundComplete, h8, if_false]

/-- The award performed by a completed deal, as a disjunction over the three
winner cases. -/
theorem checkRoundComplete_award (room : Room)
    (h8 : tricksSum room.tricksWon ≥ 8) :
    ∃ rr, (checkRoundComplete room).2.roundResult = some rr ∧
      rr.teamATricks = trickCount room 0 + trickCount room 2 ∧
      rr.teamBTricks = trickCount room 1 + trickCount room 3 ∧
      rr.defendingTeam =
        (if getTeamForPosition room.trumpSelector = Team.A then Team.B
         else Team.A) ∧
      ((rr.teamATricks > rr.teamBTricks ∧ rr.winningTeam = some Team.A ∧
          rr.pointsAwarded =
            (if rr.defendingTeam = Team.A ∧ rr.teamATricks = 8 then 2 else 1) ∧
          (checkRoundComplete room).1.scores =
            ⟨room.scores.teamA + rr.pointsAwarded, room.scores.teamB⟩) ∨
       (rr.teamBTricks > rr.teamATricks ∧ rr.winningTeam = some Team.B ∧
          rr.pointsAwarded =
            (if rr.defendingTeam = Team.B ∧ rr.teamBTricks = 8 then 2 else 1) ∧
          (checkRoundComplete room).1.scores =
            ⟨room.scores.teamA, room.scores.teamB + rr.pointsAwarded⟩) ∨
       (rr.teamATricks = rr.teamBTricks ∧ rr.winningTeam = none ∧
          rr.pointsAwarded = 0 ∧
          (checkRoundComplete room).1.scores = room.scores)) := by
  rw [checkRoundComplete_spec room h8]
  dsimp only
  split_ifs <;> refine ⟨_, rfl, rfl, rfl, rfl, ?_⟩
  all_goals simp_all
  all_goals omega

/-- Phase outcome of a completed deal: the match completes at the target, or
the next deal is set up with the successor of the last trick's winner as the
new trump selector. -/
theorem checkRoundComplete_phase (room : Room)
    (h8 : tricksSum room.tricksWon ≥ 8) :
    ((checkRoundComplete room).2.roundComplete = true) ∧
    (((checkRoundComplete room).2.gameComplete = true ∧
      (checkRoundComplete room).1.gameState = .completed ∧
      (checkRoundComplete room).1.trump = room.trump ∧
      ((checkRoundComplete room).1.scores.teamA ≥ 10 ∨
        (checkRoundComplete room).1.scores.teamB ≥ 10)) ∨
     ((checkRoundComplete room).2.gameComplete = false ∧
      (checkRoundComplete room).1.gameState = .trump_selection ∧
      (checkRoundComplete room).1.trump = none ∧
      (checkRoundComplete room).1.scores.teamA < 10 ∧
      (checkRoundComplete room).1.scores.teamB < 10 ∧
      (checkRoundComplete room).1.currentPlayerIndex =
        (room.currentPlayerIndex + 1) % 4 ∧
      (checkRoundComplete room).1.trumpSelector =
        (((room.currentPlayerIndex + 1) % 4 : Nat) : Int) ∧
      (checkRoundComplete room).1.tricksWon = [0, 0, 0, 0] ∧
      (checkRoundComplete room).1.currentTrick = [])) := by
  rw [checkRoundComplete_spec room h8]
  dsimp only
  split_ifs <;> refine ⟨rfl, ?_⟩
  all_goals simp_all
  all_goals omega

/-- Fields `checkRoundComplete` never touches. -/
theorem checkRoundComplete_frame (room : Room) :
    (checkRoundComplete room).1.players = room.players ∧
    (checkRoundComplete room).1.pausedFrom = room.pausedFrom ∧
    (checkRoundComplete room).1.deck = room.deck := by
  by_cases h8 : tricksSum room.tricksWon ≥ 8
  · rw [checkRoundComplete_spec room h8]
    dsimp only
    split_ifs <;> exact ⟨rfl, rfl, rfl⟩
  · rw [checkRoundComplete_incomplete room h8]
    exact ⟨rfl, rfl, rfl⟩

/-! ## Helper lemmas: connectivity counting -/

theorem option_any_iff {op : Option Player} {f : Player → Bool} :
    op.any f = true ↔ ∃ p, op = some p ∧ f p = true := by
  cases op <;> simp [Option.any]

theorem connectedCount_pos {r : Room} {p : Player}
    (hmem : some p ∈ r.players) (hc : p.connected = true) :
    1 ≤ connectedCount r := by
  have hf : some p ∈ r.players.filter fun op => op.any (·.connected) :=
    List.mem_filter.mpr ⟨hmem, by simp [Option.any, hc]⟩
  exact List.length_pos.mpr (List.ne_nil_of_mem hf)

theorem allConnected_of_connectedCount {r : Room}
    (hlen : r.players.length = 4) (hc : connectedCount r ≥ 4) :
    allConnected r := by
  have hsub :
      (r.players.filter fun op => op.any (·.connected)).Sublist r.players :=
    List.filter_sublist r.players
  have hle := hsub.length_le
  have heq : (r.players.filter fun op => op.any (·.connected)).length =
      r.players.length := by
    unfold connectedCount at hc
    omega
  have hfe := hsub.eq_of_length heq
  intro op hop
  have hpred := List.filter_eq_self.mp hfe op hop
  exact option_any_iff.mp hpred

theorem allConnected_set {l : List (Option Player)} {i : Nat} {q : Player}
    (hall : ∀ op ∈ l, ∃ p, op = some p ∧ p.connected = true)
    (hq : q.connected = true) :
    ∀ op ∈ l.set i (some q), ∃ p, op = some p ∧ p.connected = true := by
  intro op hop
  rcases List.mem_or_eq_of_mem_set hop with h | h
  · exact hall op h
  · exact ⟨q, h, hq⟩

/-- After overwriting one seat, some other seat still holds a connected
player (rooms have four seats). -/
theorem connected_remains {r : Room} (hlen : r.players.length = 4)
    (hall : allConnected r) (i : Nat) (p' : Player) :
    ∃ q, some q ∈ r.players.set i (some p') ∧ q.connected = true := by
  have hjne : (if i = 0 then 1 else 0) ≠ i := by split <;> omega
  have hjlt : (if i = 0 then 1 else 0) < r.players.length := by
    rw [hlen]; split <;> omega
  obtain ⟨op, hop⟩ : ∃ op, r.players.get? (if i = 0 then 1 else 0) = some op :=
    ⟨_, List.get?_eq_get hjlt⟩
  obtain ⟨q, rfl, hq⟩ := hall op (List.get?_mem hop)
  refine ⟨q, ?_, hq⟩
  have hset : (r.players.set i (some p')).get? (if i = 0 then 1 else 0) =
      some (some q) := by
    rw [List.get?_set_ne _ _ (Ne.symm hjne)]
    exact hop
  exact List.get?_mem hset

/-! ## Helper lemmas: frame facts for dealing and joining -/

theorem dealCardsForTrumpSelection_frame (r : Room) (d : List Card) :
    (dealCardsForTrumpSelection r d).gameState = r.gameState ∧
    (dealCardsForTrumpSelection r d).trump = r.trump ∧
    (dealCardsForTrumpSelection r d).scores = r.scores ∧
    (dealCardsForTrumpSelection r d).pausedFrom = r.pausedFrom ∧
    (dealCardsForTrumpSelection r d).tricksWon = r.tricksWon ∧
    (dealCardsForTrumpSelection r d).currentPlayerIndex =
      r.currentPlayerIndex ∧
    (dealCardsForTrumpSelection r d).trumpSelector = r.trumpSelector ∧
    (dealCardsForTrumpSelection r d).currentTrick = r.currentTrick ∧
    (dealCardsForTrumpSelection r d).players.length = r.players.length := by
  unfold dealCardsForTrumpSelection
  split
  · refine ⟨rfl, rfl, rfl, rfl, rfl, rfl, rfl, rfl, ?_⟩
    simp [List.enum_length]
  · exact ⟨rfl, rfl, rfl, rfl, rfl, rfl, rfl, rfl, rfl⟩

theorem dealCardsForTrumpSelection_allConnected (r : Room) (d : List Card)
    (hall : allConnected r) :
    allConnected (dealCardsForTrumpSelection r d) := by
  unfold allConnected at *
  unfold dealCardsForTrumpSelection
  split
  case _ sel hsel =>
    intro op hop
    dsimp only at hop
    rw [List.mem_map] at hop
    obtain ⟨⟨i, op0⟩, hmem, rfl⟩ := hop
    rw [List.mem_enum_iff_get?] at hmem
    have hselc : sel.connected = true := by
      obtain ⟨q, hq, hqc⟩ := hall (some sel) (List.get?_mem hsel)
      cases hq
      exact hqc
    have hop0 := List.get?_mem hmem
    rcases List.mem_or_eq_of_mem_set hop0 with h | h
    · obtain ⟨p, rfl, hp⟩ := hall op0 h
      dsimp only
      split
      · exact ⟨p, rfl, hp⟩
      · exact ⟨{ p with hand := [] }, rfl, hp⟩
    · subst h
      dsimp only
      split
      · exact ⟨_, rfl, hselc⟩
      · exact ⟨_, rfl, hselc⟩
  case _ =>
    exact hall

/-- Fold-step preservation: a fold whose step appends elements satisfying `Q`
(when the input element satisfies the lifted property) keeps `Q` over the
accumulated list. -/
theorem foldl_build_pres (Q : Option Player → Prop)
    (g : (List (Option Player) × List Card) → (Nat × Option Player) →
      (List (Option Player) × List Card))
    (hg : ∀ acc x, Q x.2 →
      ∀ op ∈ (g acc x).1, op ∈ acc.1 ∨ Q op) :
    ∀ (l : List (Nat × Option Player)) acc,
      (∀ x ∈ l, Q x.2) → (∀ op ∈ acc.1, Q op) →
      ∀ op ∈ (l.foldl g acc).1, Q op := by
  intro l
  induction l with
  | nil => intro acc _ hacc op hop; exact hacc op hop
  | cons x xs ih =>
    intro acc hl hacc op hop
    rw [List.foldl_cons] at hop
    refine ih (g acc x) (fun y hy => hl y (List.mem_cons_of_mem x hy)) ?_ op hop
    intro op2 hop2
    rcases hg acc x (hl x (List.mem_cons_self x xs)) op2 hop2 with h | h
    · exact hacc op2 h
    · exact h

theorem foldl_build_length
    (g : (List (Option Player) × List Card) → (Nat × Option Player) →
      (List (Option Player) × List Card))
    (hg : ∀ acc x, ((g acc x).1).length = acc.1.length + 1) :
    ∀ (l : List (Nat × Option Player)) acc,
      ((l.foldl g acc).1).length = acc.1.length + l.length := by
  intro l
  induction l with
  | nil => intro acc; rfl
  | cons x xs ih =>
    intro acc
    rw [List.foldl_cons, ih (g acc x), hg acc x, List.length_cons]
    omega

theorem dealRemainingCards_frame (r : Room) :
    (dealRemainingCards r).gameState = r.gameState ∧
    (dealRemainingCards r).trump = r.trump ∧
    (dealRemainingCards r).scores = r.scores ∧
    (dealRemainingCards r).pausedFrom = r.pausedFrom ∧
    (dealRemainingCards r).tricksWon = r.tricksWon ∧
    (dealRemainingCards r).currentPlayerIndex = r.currentPlayerIndex ∧
    (dealRemainingCards r).trumpSelector = r.trumpSelector ∧
    (dealRemainingCards r).currentTrick = r.currentTrick := by
  exact ⟨rfl, rfl, rfl, rfl, rfl, rfl, rfl, rfl⟩

theorem dealRemainingCards_length (r : Room) :
    (dealRemainingCards r).players.length = r.players.length := by
  unfold dealRemainingCards
  dsimp only
  rw [foldl_build_length _ ?hg r.players.enum ([], r.deck)]
  · simp [List.enum_length]
  case hg =>
    intro acc x
    rcases x with ⟨i, _ | p⟩
    · simp
    · dsimp only
      split <;> simp

theorem dealRemainingCards_allConnected (r : Room) (hall : allConnected r) :
    allConnected (dealRemainingCards r) := by
  unfold allConnected at *
  unfold dealRemainingCards
  dsimp only
  refine foldl_build_pres
    (fun op => ∃ p, op = some p ∧ p.connected = true) _ ?_
    r.players.enum ([], r.deck) ?_ (by intro op hop; cases hop)
  · intro acc x hx op hop
    rcases x with ⟨i, _ | p⟩
    · obtain ⟨p, hp, _⟩ := hx
      cases hp
    · obtain ⟨p2, hp2, hp2c⟩ := hx
      cases hp2
      dsimp only at hop
      split at hop <;>
        rcases List.mem_append.mp hop with h | h <;>
        first
          | exact Or.inl h
          | (rw [List.mem_singleton] at h; exact Or.inr ⟨_, h, hp2c⟩)
  · intro x hx
    rw [List.mem_enum_iff_get?] at hx
    exact hall x.2 (List.get?_mem hx)

theorem addPlayerToRoom_frame (room : Room) (pd : PlayerData) (team : Team)
    (isReconnect : Bool) (now : Nat) :
    (addPlayerToRoom room pd team isReconnect now).1.gameState =
      room.gameState ∧
    (addPlayerToRoom room pd team isReconnect now).1.trump = room.trump ∧
    (addPlayerToRoom room pd team isReconnect now).1.scores = room.scores ∧
    (addPlayerToRoom room pd team isReconnect now).1.pausedFrom =
      room.pausedFrom ∧
    (addPlayerToRoom room pd team isReconnect now).1.tricksWon =
      room.tricksWon ∧
    (addPlayerToRoom room pd team isReconnect now).1.currentPlayerIndex =
      room.currentPlayerIndex ∧
    (addPlayerToRoom room pd team isReconnect now).1.trumpSelector =
      room.trumpSelector ∧
    (addPlayerToRoom room pd team isReconnect now).1.currentTrick =
      room.currentTrick ∧
    (addPlayerToRoom room pd team isReconnect now).1.deck = room.deck ∧
    (addPlayerToRoom room pd team isReconnect now).1.players.length =
      room.players.length ∧
    ((addPlayerToRoom room pd team isReconnect now).1.players =
        room.players ∨
      ∃ i q, q.connected = true ∧
        (addPlayerToRoom room pd team isReconnect now).1.players =
          room.players.set i (some q)) := by
  unfold addPlayerToRoom
  dsimp only
  split
  · split
    · exact ⟨rfl, rfl, rfl, rfl, rfl, rfl, rfl, rfl, rfl,
        by simp, Or.inr ⟨_, _, rfl, rfl⟩⟩
    · exact ⟨rfl, rfl, rfl, rfl, rfl, rfl, rfl, rfl, rfl, rfl, Or.inl rfl⟩
  · split
    · exact ⟨rfl, rfl, rfl, rfl, rfl, rfl, rfl, rfl, rfl, rfl, Or.inl rfl⟩
    · split
      · exact ⟨rfl, rfl, rfl, rfl, rfl, rfl, rfl, rfl, rfl, rfl, Or.inl rfl⟩
      · split
        · exact ⟨rfl, rfl, rfl, rfl, rfl, rfl, rfl, rfl, rfl, rfl, Or.inl rfl⟩
        · exact ⟨rfl, rfl, rfl, rfl, rfl, rfl, rfl, rfl, rfl,
            by simp, Or.inr ⟨_, _, rfl, rfl⟩⟩

/-! ## Invariant preservation -/

theorem Inv_init (roomId now : Nat) : Inv (initializeRoom roomId now) := by
  refine ⟨rfl, ?_, ?_, ?_, ?_, ?_, ?_, ?_⟩ <;> intro h <;> simp_all [initializeRoom]

theorem stepSelectTrump_inv (r : Room) (sid : Nat) (t : Suit) (now : Nat)
    (h : Inv r) : Inv (stepSelectTrump r sid t now) := by
  obtain ⟨hlen, hconn, hwait, hts, hpl, hcomp, hpause, hsc⟩ := h
  unfold stepSelectTrump
  split
  · exact ⟨hlen, hconn, hwait, hts, hpl, hcomp, hpause, hsc⟩
  case isFalse hphase =>
    have hphase2 : r.gameState = Phase.trump_selection := by
      by_contra hx
      exact hphase hx
    split
    · exact ⟨hlen, hconn, hwait, hts, hpl, hcomp, hpause, hsc⟩
    case _ playerIndex hfind =>
      split
      · exact ⟨hlen, hconn, hwait, hts, hpl, hcomp, hpause, hsc⟩
      · set room2 : Room :=
          { r with
              trump := some t
              trumpSelector := (playerIndex : Int)
              gameState := .playing
              lastActivity := now } with hroom2
        have hall2 : allConnected room2 := hconn (Or.inl hphase2)
        obtain ⟨hg, htr, hscf, hpf, htw, hcpi, hsel, hct⟩ :=
          dealRemainingCards_frame room2
        refine ⟨?_, ?_, ?_, ?_, ?_, ?_, ?_, ?_⟩
        · rw [dealRemainingCards_length, hroom2]
          exact hlen
        · intro _
          exact dealRemainingCards_allConnected room2 hall2
        · intro hx
          rw [hg] at hx
          cases hx
        · intro hx
          rw [hg] at hx
          cases hx
        · intro _
          rw [htr]
          simp [hroom2]
        · intro hx
          rw [hg] at hx
          cases hx
        · intro hx
          rw [hg] at hx
          cases hx
        · intro _
          rw [hscf]
          exact hsc (by rw [hphase2]; simp)

theorem dealTimer_inv (r : Room) (d : List Card) (h : Inv r) :
    Inv (dealCardsForTrumpSelection r d) := by
  obtain ⟨hlen, hconn, hwait, hts, hpl, hcomp, hpause, hsc⟩ := h
  obtain ⟨hg, htr, hscf, hpf, htw, hcpi, hsel, hct, hl⟩ :=
    dealCardsForTrumpSelection_frame r d
  refine ⟨by rw [hl]; exact hlen, ?_, ?_, ?_, ?_, ?_, ?_, ?_⟩
  · intro hx
    rw [hg] at hx
    exact dealCardsForTrumpSelection_allConnected r d (hconn hx)
  · intro hx
    rw [hg] at hx
    rw [htr]
    exact hwait hx
  · intro hx
    rw [hg] at hx
    rw [htr]
    exact hts hx
  · intro hx
    rw [hg] at hx
    rw [htr]
    exact hpl hx
  · intro hx
    rw [hg] at hx
    rw [htr]
    exact hcomp hx
  · intro hx
    rw [hg] at hx
    rw [htr, hpf]
    exact hpause hx
  · intro hx
    rw [hg] at hx
    rw [hscf]
    exact hsc hx

theorem stepEvict_inv (r : Room) (now : Nat) (h : Inv r) :
    Inv (stepEvict r now) := by
  obtain ⟨hlen, hconn, hwait, hts, hpl, hcomp, hpause, hsc⟩ := h
  unfold stepEvict
  dsimp only
  split
  · exact ⟨hlen, hconn, hwait, hts, hpl, hcomp, hpause, hsc⟩
  case isFalse hne =>
    refine ⟨by simpa using hlen, ?_, hwait, hts, hpl, hcomp, hpause, hsc⟩
    intro hx
    exfalso
    apply hne
    have hall := hconn hx
    refine (List.map_congr_left ?_).trans (List.map_id r.players)
    intro op hop
    obtain ⟨p, rfl, hp⟩ := hall op hop
    simp [hp]

set_option maxHeartbeats 1000000 in
theorem stepDisconnect_inv (r : Room) (sid : Nat) (now : Nat) (h : Inv r) :
    Inv (stepDisconnect r sid now).1 := by
  obtain ⟨hlen, hconn, hwait, hts, hpl, hcomp, hpause, hsc⟩ := h
  unfold stepDisconnect
  split
  · exact ⟨hlen, hconn, hwait, hts, hpl, hcomp, hpause, hsc⟩
  case _ playerIndex hfind =>
    split
    case _ p hp =>
      dsimp only
      split
      case isTrue hcond =>
        have hnc : r.gameState ≠ Phase.completed := by
          rcases hcond.1 with hx | hx <;> rw [hx] <;> simp
        refine ⟨by simpa using hlen, ?_, ?_, ?_, ?_, ?_, ?_, ?_⟩
        · intro hx
          rcases hx with hx | hx <;> exact absurd hx (by simp)
        · intro hx
          exact absurd hx (by simp)
        · intro hx
          exact absurd hx (by simp)
        · intro hx
          exact absurd hx (by simp)
        · intro hx
          exact absurd hx (by simp)
        · intro _
          rcases hcond.1 with hx | hx
          · refine ⟨Or.inl (by rw [hx]), ?_⟩
            constructor
            · intro _
              rw [hx]
            · intro _
              exact hpl hx
          · refine ⟨Or.inr (by rw [hx]), ?_⟩
            constructor
            · intro hy
              exact absurd (hts hx) hy
            · intro hy
              rw [hx] at hy
              exact absurd hy (by simp)
        · intro _
          exact hsc hnc
      case isFalse hcond =>
        have hnotplay : ¬ (r.gameState = Phase.playing ∨
            r.gameState = Phase.trump_selection) := by
          intro hx
          apply hcond
          refine ⟨hx, ?_⟩
          have hall : allConnected r := hconn hx.symm
          obtain ⟨q, hqmem, hqc⟩ := connected_remains hlen hall playerIndex
            { p with connected := false, lastSeen := now }
          exact @connectedCount_pos { r with
            players := r.players.set playerIndex
              (some { p with connected := false, lastSeen := now })
            lastActivity := now } q hqmem hqc
        refine ⟨by simpa using hlen, ?_, hwait, hts, hpl, hcomp, hpause, hsc⟩
        intro hx
        exact absurd hx.symm hnotplay
    · exact ⟨hlen, hconn, hwait, hts, hpl, hcomp, hpause, hsc⟩

theorem Inv_completed {x : Room} (hg : x.gameState = Phase.completed)
    (hl : x.players.length = 4) (ht : x.trump ≠ none) : Inv x := by
  refine ⟨hl, ?_, ?_, ?_, ?_, fun _ => ht, ?_, ?_⟩ <;> intro hx
  · rcases hx with hx | hx <;> (rw [hg] at hx; exact absurd hx (by simp))
  · rw [hg] at hx; exact absurd hx (by simp)
  · rw [hg] at hx; exact absurd hx (by simp)
  · rw [hg] at hx; exact absurd hx (by simp)
  · rw [hg] at hx; exact absurd hx (by simp)
  · exact absurd hg hx

theorem Inv_ts {x : Room} (hg : x.gameState = Phase.trump_selection)
    (hl : x.players.length = 4) (hconn : allConnected x)
    (ht : x.trump = none)
    (hs : x.scores.teamA < 10 ∧ x.scores.teamB < 10) : Inv x := by
  refine ⟨hl, fun _ => hconn, ?_, fun _ => ht, ?_, ?_, ?_, fun _ => hs⟩ <;>
    intro hx <;> rw [hg] at hx <;> exact absurd hx (by simp)

theorem Inv_playing {x : Room} (hg : x.gameState = Phase.playing)
    (hl : x.players.length = 4) (hconn : allConnected x)
    (ht : x.trump ≠ none)
    (hs : x.scores.teamA < 10 ∧ x.scores.teamB < 10) : Inv x := by
  refine ⟨hl, fun _ => hconn, ?_, ?_, fun _ => ht, ?_, ?_, fun _ => hs⟩ <;>
    intro hx <;> rw [hg] at hx <;> exact absurd hx (by simp)

theorem connected_of_get? {r : Room} (hall : allConnected r) {i : Nat}
    {p : Player} (hget : r.players.get? i = some (some p)) :
    p.connected = true := by
  obtain ⟨q, hq, hqc⟩ := hall (some p) (List.get?_mem hget)
  cases hq
  exact hqc

theorem ite_pair_fst {c : Prop} [Decidable c] {A B : Type} (x : A)
    (o1 o2 : B) : (if c then (x, o1) else (x, o2)).1 = x := by
  split <;> rfl

set_option maxHeartbeats 2000000 in
theorem stepPlayCard_inv (r : Room) (sid idx now : Nat) (h : Inv r) :
    Inv (stepPlayCard r sid idx now).1 := by
  obtain ⟨hlen, hconn, hwait, hts, hpl, hcomp, hpause, hsc⟩ := h
  unfold stepPlayCard
  split
  · exact ⟨hlen, hconn, hwait, hts, hpl, hcomp, hpause, hsc⟩
  case isFalse hphase =>
    have hplay : r.gameState = Phase.playing := by
      by_contra hx
      exact hphase hx
    have hall : allConnected r := hconn (Or.inr hplay)
    have hsc2 := hsc (by rw [hplay]; simp)
    split
    · exact ⟨hlen, hconn, hwait, hts, hpl, hcomp, hpause, hsc⟩
    case _ playerIndex hfind =>
      split
      · exact ⟨hlen, hconn, hwait, hts, hpl, hcomp, hpause, hsc⟩
      case isFalse hturn =>
        split
        case _ player hget =>
          have hpc : player.connected = true := connected_of_get? hall hget
          split
          · exact ⟨hlen, hconn, hwait, hts, hpl, hcomp, hpause, hsc⟩
          case _ card hcard =>
            split
            · exact ⟨hlen, hconn, hwait, hts, hpl, hcomp, hpause, hsc⟩
            case isFalse hvalid =>
              dsimp only
              split
              case isTrue hfour =>
                split
                case _ winner hwin =>
                  -- the room at the point `checkRoundComplete` is called
                  set room4 : Room :=
                    { r with
                        lastActivity := now
                        currentTrick := []
                        players := r.players.set playerIndex
                          (some { player with
                                    hand := player.hand.set idx none })
                        tricksWon := (r.tricksWon.set winner.playerIndex
                          (r.tricksWon.getD winner.playerIndex 0 + 1))
                        currentPlayerIndex := winner.playerIndex
                        lastTrickWinner := (winner.playerIndex : Int) }
                    with hroom4
                  have h4len : room4.players.length = 4 := by
                    rw [hroom4]
                    simpa using hlen
                  have h4all : allConnected room4 := by
                    rw [hroom4]
                    intro op hop
                    refine allConnected_set hall ?_ op hop
                    exact hpc
                  obtain ⟨hfp, hfpau, hfdk⟩ := checkRoundComplete_frame room4
                  rw [ite_pair_fst]
                  by_cases h8 : tricksSum room4.tricksWon ≥ 8
                  · obtain ⟨hrc, hcase⟩ := checkRoundComplete_phase room4 h8
                    rcases hcase with ⟨hgc, hgs, htr, _⟩ |
                      ⟨hgc, hgs, htr, hA, hB, _, _, _, _⟩
                    · refine Inv_completed hgs ?_ ?_
                      · rw [hfp]
                        exact h4len
                      · rw [htr]
                        exact hpl hplay
                    · refine Inv_ts hgs ?_ ?_ htr ⟨hA, hB⟩
                      · rw [hfp]
                        exact h4len
                      · intro op hop
                        rw [hfp] at hop
                        exact h4all op hop
                  · rw [checkRoundComplete_incomplete room4 h8]
                    exact Inv_playing hplay h4len h4all (hpl hplay) hsc2
                case _ =>
                  dsimp only
                  refine Inv_playing hplay (by simpa using hlen) ?_
                    (hpl hplay) hsc2
                  intro op hop
                  refine allConnected_set hall ?_ op hop
                  exact hpc
              case isFalse =>
                dsimp only
                refine Inv_playing hplay (by simpa using hlen) ?_
                  (hpl hplay) hsc2
                intro op hop
                refine allConnected_set hall ?_ op hop
                exact hpc
        · exact ⟨hlen, hconn, hwait, hts, hpl, hcomp, hpause, hsc⟩

set_option maxHeartbeats 2000000 in
theorem stepJoin_inv (r : Room) (sid name : Nat) (team : Team)
    (isReconnect : Bool) (shuffled : List Card) (now : Nat) (h : Inv r) :
    Inv (stepJoin r sid name team isReconnect shuffled now) := by
  obtain ⟨hlen, hconn, hwait, hts, hpl, hcomp, hpause, hsc⟩ := h
  obtain ⟨hg, htr, hscf, hpf, htw, hcpi, hsel, hct, hdk, hplen, hpcase⟩ :=
    addPlayerToRoom_frame r ⟨sid, name⟩ team isReconnect now
  have h2 : Inv (addPlayerToRoom r ⟨sid, name⟩ team isReconnect now).1 := by
    refine ⟨by rw [hplen]; exact hlen, ?_,
      by rw [hg, htr]; exact hwait, by rw [hg, htr]; exact hts,
      by rw [hg, htr]; exact hpl, by rw [hg, htr]; exact hcomp,
      by rw [hg, htr, hpf]; exact hpause, by rw [hg, hscf]; exact hsc⟩
    intro hx
    rw [hg] at hx
    have hall := hconn hx
    rcases hpcase with hp | ⟨i, q, hqc, hp⟩
    · intro op hop
      rw [hp] at hop
      exact hall op hop
    · intro op hop
      rw [hp] at hop
      exact allConnected_set hall hqc op hop
  obtain ⟨h2len, h2conn, h2wait, h2ts, h2pl, h2comp, h2pause, h2sc⟩ := h2
  unfold stepJoin
  dsimp only
  split
  · exact ⟨h2len, h2conn, h2wait, h2ts, h2pl, h2comp, h2pause, h2sc⟩
  split
  · -- reconnection branch
    split
    case isTrue hcond =>
      have hall2 : allConnected
          (addPlayerToRoom r ⟨sid, name⟩ team isReconnect now).1 :=
        allConnected_of_connectedCount h2len hcond.2
      have hscores2 : (addPlayerToRoom r ⟨sid, name⟩ team isReconnect
          now).1.scores.teamA < 10 ∧
          (addPlayerToRoom r ⟨sid, name⟩ team isReconnect
            now).1.scores.teamB < 10 :=
        h2sc (by rw [hcond.1]; simp)
      split
      case isTrue htnone =>
        have h3 : Inv
            { (addPlayerToRoom r ⟨sid, name⟩ team isReconnect now).1 with
                gameState := .trump_selection, pausedFrom := none } := by
          refine Inv_ts rfl h2len ?_ htnone hscores2
          intro op hop
          exact hall2 op hop
        split
        case _ seltr hselget =>
          split
          · split
            · exact dealTimer_inv _ shuffled h3
            · exact h3
          · exact h3
        · exact h3
      case isFalse htsome =>
        refine Inv_playing rfl h2len ?_ htsome hscores2
        intro op hop
        exact hall2 op hop
    · exact ⟨h2len, h2conn, h2wait, h2ts, h2pl, h2comp, h2pause, h2sc⟩
  · -- new-join branch
    split
    case isTrue hcond =>
      have hall2 : allConnected
          (addPlayerToRoom r ⟨sid, name⟩ team isReconnect now).1 :=
        allConnected_of_connectedCount h2len (by rw [hcond.1])
      unfold startGame
      dsimp only
      split
      · exact ⟨h2len, h2conn, h2wait, h2ts, h2pl, h2comp, h2pause, h2sc⟩
      · refine dealTimer_inv _ shuffled ?_
        refine Inv_ts rfl h2len ?_ ?_ (by constructor <;> norm_num)
        · intro op hop
          exact hall2 op hop
        · exact h2wait hcond.2
    · exact ⟨h2len, h2conn, h2wait, h2ts, h2pl, h2comp, h2pause, h2sc⟩

theorem step_inv (e : GEvent) (r : Room) (h : Inv r) : Inv (step e r).1 := by
  cases e with
  | join sid name team isReconnect shuffled now =>
    exact stepJoin_inv r sid name team isReconnect shuffled now h
  | selectTrump sid t now => exact stepSelectTrump_inv r sid t now h
  | playCard sid cardIndex now => exact stepPlayCard_inv r sid cardIndex now h
  | disconnect sid now => exact stepDisconnect_inv r sid now h
  | dealTimer shuffled => exact dealTimer_inv r shuffled h
  | evict now => exact stepEvict_inv r now h

theorem runEvents_inv (evs : List GEvent) (r : Room) (h : Inv r) :
    Inv (runEvents evs r) := by
  induction evs generalizing r with
  | nil => exact h
  | cons e evs ih =>
    rw [runEvents, List.foldl_cons]
    exact ih (step e r).1 (step_inv e r h)

theorem reachable_inv (r : Room) (h : Reachable r) : Inv r := by
  obtain ⟨roomId, now, evs, rfl⟩ := h
  exact runEvents_inv evs _ (Inv_init roomId now)

/-! ## Claim theorems -/

/-- C1: for every hand, trick and trump suit, `getPlayableCards` returns
exactly the indices of the lead-suit cards when the hand holds at least one
card of the lead suit, exactly the indices of all non-null cards when it
holds none, and exactly the indices of all non-null cards when the trick is
empty (leading). -/
theorem C1_getPlayableCards_exact (hand : List (Option Card))
    (trick : List TrickEntry) (trump : Suit) (i : Nat) :
    (i ∈ getPlayableCards hand [] (some trump) ↔
      ∃ c, hand.get? i = some (some c)) ∧
    (∀ t0 ts, trick = t0 :: ts →
      ((∃ j c, hand.get? j = some (some c) ∧ c.suit = t0.card.suit) →
        (i ∈ getPlayableCards hand trick (some trump) ↔
          ∃ c, hand.get? i = some (some c) ∧ c.suit = t0.card.suit)) ∧
      ((¬ ∃ j c, hand.get? j = some (some c) ∧ c.suit = t0.card.suit) →
        (i ∈ getPlayableCards hand trick (some trump) ↔
          ∃ c, hand.get? i = some (some c)))) := by
  constructor
  · simpa [getPlayableCards] using @mem_nonNullIndices hand i
  · rintro t0 ts rfl
    constructor
    · intro hhas
      have hpos := leadSuitIndices_pos hhas
      simp only [getPlayableCards, hpos, if_pos]
      exact mem_leadSuitIndices
    · intro hnone
      have hz := leadSuitIndices_nil hnone
      simp only [getPlayableCards, hz]
      simpa using @mem_nonNullIndices hand i

/-- C1 witness: a concrete hand forced to follow suit. -/
theorem C1_getPlayableCards_exact_witness :
    ([some (Card.mk .hearts .ace), none, some (Card.mk .clubs .r7),
        some (Card.mk .clubs .king)].get? 0 = some (some (Card.mk .hearts .ace))) ∧
    ((2 : Nat) ∈ getPlayableCards
        [some (Card.mk .hearts .ace), none, some (Card.mk .clubs .r7),
          some (Card.mk .clubs .king)]
        [⟨1, 102, Card.mk .clubs .r9⟩] (some Suit.hearts) ↔
      ∃ c, [some (Card.mk .hearts .ace), none, some (Card.mk .clubs .r7),
          some (Card.mk .clubs .king)].get? 2 = some (some c) ∧
        c.suit = Suit.clubs) :=
  ⟨by decide,
    ((C1_getPlayableCards_exact
      [some (Card.mk .hearts .ace), none, some (Card.mk .clubs .r7),
        some (Card.mk .clubs .king)]
      [⟨1, 102, Card.mk .clubs .r9⟩] Suit.hearts 2).2
      ⟨1, 102, Card.mk .clubs .r9⟩ [] rfl).1
      ⟨2, Card.mk .clubs .r7, by decide, by decide⟩⟩

/-- C2: in a 4-entry trick, if any entry has the trump suit, the winner is a
trump entry of maximal card value; otherwise the winner matches the lead suit
(the first entry's suit) and has maximal value among lead-suit entries; and
any trump card outranks any non-trump card because of the +10 offset. -/
theorem C2_getTrickWinner_spec (trick : List TrickEntry) (trump : Suit)
    (h4 : trick.length = 4) :
    ((∃ e ∈ trick, e.card.suit = trump) →
      ∃ w, getTrickWinner trick (some trump) = some w ∧ w ∈ trick ∧
        w.card.suit = trump ∧
        ∀ e ∈ trick, e.card.suit = trump →
          getCardValue e.card (some trump) ≤ getCardValue w.card (some trump)) ∧
    (∀ t0 ts, trick = t0 :: ts → (¬ ∃ e ∈ trick, e.card.suit = trump) →
      ∃ w, getTrickWinner trick (some trump) = some w ∧ w ∈ trick ∧
        w.card.suit = t0.card.suit ∧
        ∀ e ∈ trick, e.card.suit = t0.card.suit →
          getCardValue e.card (some trump) ≤ getCardValue w.card (some trump)) ∧
    (∀ e1 e2 : TrickEntry, e1.card.suit = trump → ¬ e2.card.suit = trump →
      getCardValue e2.card (some trump) < getCardValue e1.card (some trump)) := by
  refine ⟨?_, ?_, ?_⟩
  · intro h
    match trick, h4 with
    | t0 :: ts, _ =>
      obtain ⟨w, hw, hmem, hsuit, hmax⟩ := getTrickWinner_of_trump t0 ts (some trump)
        (by obtain ⟨e, he, hs⟩ := h; exact ⟨e, he, by simp [hs]⟩)
      refine ⟨w, hw, hmem, by simpa using hsuit, ?_⟩
      intro e he hs
      exact hmax e he (by simp [hs])
  · rintro t0 ts rfl h
    obtain ⟨w, hw, hmem, hsuit, hmax⟩ := getTrickWinner_of_no_trump t0 ts (some trump)
      (by
        intro e he hs
        exact h ⟨e, he, by simpa using hs⟩)
    exact ⟨w, hw, hmem, hsuit, hmax⟩
  · intro e1 e2 h1 h2
    rw [getCardValue_of_trump h1, getCardValue_of_not_trump h2]
    have := rankValues_le e2.card.rank
    have := rankValues_pos e1.card.rank
    omega

/-- C3: with the four trick counters summing to 8 and a valid trump-selector
seat, `checkRoundComplete` awards 2 points for a defending-team sweep (the
defending team is the one not containing the selector's seat), 1 point for
any other strict majority (including a trump-team sweep), and 0 points on a
4-4 split; Team A counts seats 0 and 2, Team B seats 1 and 3. -/
theorem C3_checkRoundComplete_scoring (room : Room) (w0 w1 w2 w3 : Nat)
    (hw : room.tricksWon = [w0, w1, w2, w3])
    (hsum : w0 + w1 + w2 + w3 = 8)
    (hsel : room.trumpSelector = 0 ∨ room.trumpSelector = 1 ∨
      room.trumpSelector = 2 ∨ room.trumpSelector = 3) :
    ((w0 + w2 > w1 + w3 ∧
        (if room.trumpSelector = 0 ∨ room.trumpSelector = 2 then Team.B
          else Team.A) = Team.A ∧ w0 + w2 = 8) →
      (checkRoundComplete room).1.scores.teamA = room.scores.teamA + 2 ∧
      (checkRoundComplete room).1.scores.teamB = room.scores.teamB ∧
      ∃ rr, (checkRoundComplete room).2.roundResult = some rr ∧
        rr.winningTeam = some Team.A ∧ rr.pointsAwarded = 2) ∧
    ((w0 + w2 > w1 + w3 ∧
        ¬((if room.trumpSelector = 0 ∨ room.trumpSelector = 2 then Team.B
            else Team.A) = Team.A ∧ w0 + w2 = 8)) →
      (checkRoundComplete room).1.scores.teamA = room.scores.teamA + 1 ∧
      (checkRoundComplete room).1.scores.teamB = room.scores.teamB ∧
      ∃ rr, (checkRoundComplete room).2.roundResult = some rr ∧
        rr.winningTeam = some Team.A ∧ rr.pointsAwarded = 1) ∧
    ((w1 + w3 > w0 + w2 ∧
        (if room.trumpSelector = 0 ∨ room.trumpSelector = 2 then Team.B
          else Team.A) = Team.B ∧ w1 + w3 = 8) →
      (checkRoundComplete room).1.scores.teamA = room.scores.teamA ∧
      (checkRoundComplete room).1.scores.teamB = room.scores.teamB + 2 ∧
      ∃ rr, (checkRoundComplete room).2.roundResult = some rr ∧
        rr.winningTeam = some Team.B ∧ rr.pointsAwarded = 2) ∧
    ((w1 + w3 > w0 + w2 ∧
        ¬((if room.trumpSelector = 0 ∨ room.trumpSelector = 2 then Team.B
            else Team.A) = Team.B ∧ w1 + w3 = 8)) →
      (checkRoundComplete room).1.scores.teamA = room.scores.teamA ∧
      (checkRoundComplete room).1.scores.teamB = room.scores.teamB + 1 ∧
      ∃ rr, (checkRoundComplete room).2.roundResult = some rr ∧
        rr.winningTeam = some Team.B ∧ rr.pointsAwarded = 1) ∧
    (w0 + w2 = w1 + w3 →
      (checkRoundComplete room).1.scores = room.scores ∧
      ∃ rr, (checkRoundComplete room).2.roundResult = some rr ∧
        rr.winningTeam = none ∧ rr.pointsAwarded = 0) := by
  have h8 : tricksSum room.tricksWon ≥ 8 := by
    rw [hw]; simp only [tricksSum, List.foldl]; omega
  have hc0 : trickCount room 0 = w0 := by rw [trickCount, hw]; rfl
  have hc1 : trickCount room 1 = w1 := by rw [trickCount, hw]; rfl
  have hc2 : trickCount room 2 = w2 := by rw [trickCount, hw]; rfl
  have hc3 : trickCount room 3 = w3 := by rw [trickCount, hw]; rfl
  have hdef : (if getTeamForPosition room.trumpSelector = Team.A then Team.B
      else Team.A) =
      (if room.trumpSelector = 0 ∨ room.trumpSelector = 2 then Team.B
        else Team.A) := by
    rcases hsel with h | h | h | h <;> simp [getTeamForPosition, h]
  obtain ⟨rr, hrr, hA, hB, hD, hcase⟩ := checkRoundComplete_award room h8
  rw [hc0, hc2] at hA
  rw [hc1, hc3] at hB
  rw [hdef] at hD
  refine ⟨?_, ?_, ?_, ?_, ?_⟩
  · rintro ⟨hgt, hdA, hA8⟩
    rcases hcase with ⟨_, hwin, hpts, hsc⟩ | ⟨hgt2, _, _, _⟩ | ⟨heq, _, _, _⟩
    · have h2 : rr.pointsAwarded = 2 := by
        rw [hpts, if_pos ⟨hD.trans hdA, by omega⟩]
      rw [hsc, h2]
      exact ⟨rfl, rfl, rr, hrr, hwin, h2⟩
    · omega
    · omega
  · rintro ⟨hgt, hnot⟩
    rcases hcase with ⟨_, hwin, hpts, hsc⟩ | ⟨hgt2, _, _, _⟩ | ⟨heq, _, _, _⟩
    · have h1 : rr.pointsAwarded = 1 := by
        rw [hpts, if_neg]
        intro ⟨hx, hy⟩
        exact hnot ⟨hD.symm.trans hx, by omega⟩
      rw [hsc, h1]
      exact ⟨rfl, rfl, rr, hrr, hwin, h1⟩
    · omega
    · omega
  · rintro ⟨hgt, hdB, hB8⟩
    rcases hcase with ⟨hgt2, _, _, _⟩ | ⟨_, hwin, hpts, hsc⟩ | ⟨heq, _, _, _⟩
    · omega
    · have h2 : rr.pointsAwarded = 2 := by
        rw [hpts, if_pos ⟨hD.trans hdB, by omega⟩]
      rw [hsc, h2]
      exact ⟨rfl, rfl, rr, hrr, hwin, h2⟩
    · omega
  · rintro ⟨hgt, hnot⟩
    rcases hcase with ⟨hgt2, _, _, _⟩ | ⟨_, hwin, hpts, hsc⟩ | ⟨heq, _, _, _⟩
    · omega
    · have h1 : rr.pointsAwarded = 1 := by
        rw [hpts, if_neg]
        intro ⟨hx, hy⟩
        exact hnot ⟨hD.symm.trans hx, by omega⟩
      rw [hsc, h1]
      exact ⟨rfl, rfl, rr, hrr, hwin, h1⟩
    · omega
  · intro heq
    rcases hcase with ⟨hgt2, _, _, _⟩ | ⟨hgt2, _, _, _⟩ | ⟨_, hwin, hpts, hsc⟩
    · omega
    · omega
    · exact ⟨hsc, rr, hrr, hwin, hpts⟩

/-- C3 witness: a defending-team sweep (selector seat 1, Team A takes all 8)
scores exactly 2 points for Team A. -/
theorem C3_checkRoundComplete_scoring_witness :
    ({ initializeRoom 1 0 with
        trumpSelector := 1, tricksWon := [4, 0, 4, 0] } : Room).tricksWon = [4, 0, 4, 0] ∧
    (checkRoundComplete { initializeRoom 1 0 with
        trumpSelector := 1, tricksWon := [4, 0, 4, 0] }).1.scores.teamA =
      ({ initializeRoom 1 0 with
          trumpSelector := 1, tricksWon := [4, 0, 4, 0] } : Room).scores.teamA + 2 ∧
    (checkRoundComplete { initializeRoom 1 0 with
        trumpSelector := 1, tricksWon := [4, 0, 4, 0] }).1.scores.teamB =
      ({ initializeRoom 1 0 with
          trumpSelector := 1, tricksWon := [4, 0, 4, 0] } : Room).scores.teamB ∧
    ∃ rr, (checkRoundComplete { initializeRoom 1 0 with
        trumpSelector := 1, tricksWon := [4, 0, 4, 0] }).2.roundResult = some rr ∧
      rr.winningTeam = some Team.A ∧ rr.pointsAwarded = 2 :=
  ⟨rfl,
    (C3_checkRoundComplete_scoring
      { initializeRoom 1 0 with
      trumpSelector := 1, tricksWon := [4, 0, 4, 0] }
      4 0 4 0 rfl (by decide) (by decide)).1 ⟨by decide, by decide, by decide⟩⟩

/-- C4 (amended): when a deal completes without either team reaching the
target, the next trump selector and first-to-act seat is the successor
`(currentPlayerIndex + 1) % 4` of the seat that won the final trick (which is
`currentPlayerIndex` at that moment), not of the previous trump selector. -/
theorem C4_next_selector (room : Room) (w0 w1 w2 w3 : Nat)
    (hw : room.tricksWon = [w0, w1, w2, w3]) (hsum : w0 + w1 + w2 + w3 = 8)
    (hbelow : (checkRoundComplete room).1.scores.teamA < 10 ∧
      (checkRoundComplete room).1.scores.teamB < 10) :
    (checkRoundComplete room).2.roundComplete = true ∧
    (checkRoundComplete room).2.gameComplete = false ∧
    (checkRoundComplete room).1.gameState = Phase.trump_selection ∧
    (checkRoundComplete room).1.trumpSelector =
      (((room.currentPlayerIndex + 1) % 4 : Nat) : Int) ∧
    (checkRoundComplete room).1.currentPlayerIndex =
      (room.currentPlayerIndex + 1) % 4 := by
  have h8 : tricksSum room.tricksWon ≥ 8 := by
    rw [hw]; simp only [tricksSum, List.foldl]; omega
  obtain ⟨hrc, hcase⟩ := checkRoundComplete_phase room h8
  rcases hcase with ⟨_, _, _, hsc⟩ | ⟨hgc, hgs, _, _, _, hcpi, hsel2, _, _⟩
  · omega
  · exact ⟨hrc, hgc, hgs, hsel2, hcpi⟩

/-- C4 counterexample: in `roomDealEnd` the deal completes (8 tricks) without
reaching the target, the previous trump selector is seat 0 and the final
trick's winner is seat 2, and the new trump selector is seat 3 — not seat
`(0 + 1) % 4 = 1` as the claim predicts. -/
theorem C4_next_selector_counterexample :
    tricksSum roomDealEnd.tricksWon = 8 ∧
    (checkRoundComplete roomDealEnd).2.roundComplete = true ∧
    (checkRoundComplete roomDealEnd).2.gameComplete = false ∧
    roomDealEnd.trumpSelector = 0 ∧
    ¬ (checkRoundComplete roomDealEnd).1.trumpSelector =
        (roomDealEnd.trumpSelector + 1) % 4 := by
  decide

/-- C4 witness: the amended rotation applied to `roomDealEnd`. -/
theorem C4_next_selector_witness :
    roomDealEnd.tricksWon = [3, 0, 5, 0] ∧
    ((checkRoundComplete roomDealEnd).2.roundComplete = true ∧
      (checkRoundComplete roomDealEnd).2.gameComplete = false ∧
      (checkRoundComplete roomDealEnd).1.gameState = Phase.trump_selection ∧
      (checkRoundComplete roomDealEnd).1.trumpSelector =
        (((roomDealEnd.currentPlayerIndex + 1) % 4 : Nat) : Int) ∧
      (checkRoundComplete roomDealEnd).1.currentPlayerIndex =
        (roomDealEnd.currentPlayerIndex + 1) % 4) :=
  ⟨rfl, C4_next_selector roomDealEnd 3 0 5 0 rfl (by decide)
    ⟨by decide, by decide⟩⟩

/-- C6 (amended): in every reachable room, `trump` is non-null exactly when
the phase is `playing` or `completed`, or the phase is `paused` and the
interrupted phase was `playing`.  (The original claim omitted `completed`:
finishing a match leaves the deal's trump in place.) -/
theorem C6_trump_iff_phase (r : Room) (h : Reachable r) :
    r.trump ≠ none ↔
      (r.gameState = Phase.playing ∨ r.gameState = Phase.completed ∨
        (r.gameState = Phase.paused ∧
          r.pausedFrom = some Phase.playing)) := by
  obtain ⟨hlen, hconn, hwait, hts, hpl, hcomp, hpause, hsc⟩ := reachable_inv r h
  cases hg : r.gameState
  case waiting => simp [hwait hg, hg]
  case trump_selection => simp [hts hg, hg]
  case playing => simp [hg, hpl hg]
  case completed => simp [hg, hcomp hg]
  case paused =>
    have hiff := (hpause hg).2
    simp only [hg]
    simpa using hiff

/-- C6 witness: the invariant at the freshly initialized room. -/
theorem C6_trump_iff_phase_witness :
    (initializeRoom 1 0).trump ≠ none ↔
      ((initializeRoom 1 0).gameState = Phase.playing ∨
        (initializeRoom 1 0).gameState = Phase.completed ∨
        ((initializeRoom 1 0).gameState = Phase.paused ∧
          (initializeRoom 1 0).pausedFrom = some Phase.playing)) :=
  C6_trump_iff_phase (initializeRoom 1 0) ⟨1, 0, [], rfl⟩

set_option maxRecDepth 400000 in
/-- C6 counterexample: after the scripted six-deal match the room is
reachable, its phase is `completed` and its trump is still non-null, so
"trump is non-null iff playing (or paused while previously playing)" fails:
trump is not null in the `completed` phase. -/
theorem C6_trump_iff_phase_counterexample :
    Reachable omiFinalRoom ∧
      (omiFinalRoom.gameState = Phase.completed ∧
       omiFinalRoom.trump ≠ none ∧
       ¬ (omiFinalRoom.gameState = Phase.playing ∨
          (omiFinalRoom.gameState = Phase.paused ∧
            omiFinalRoom.pausedFrom = some Phase.playing))) :=
  ⟨⟨1, 0, fullMatchScript, rfl⟩, by decide⟩

/-- C8: in every reachable room in phase `trump_selection` or `playing`, a
disconnect event for a seated player pauses the game — the phase never stays
`trump_selection` or `playing`.  (Reachability matters: in these phases all
four seats are connected, so at least one connected seat remains and the
pause condition of the handler holds.) -/
theorem C8_disconnect_pauses (r : Room) (hr : Reachable r)
    (hphase : r.gameState = Phase.trump_selection ∨
      r.gameState = Phase.playing)
    (sid now : Nat)
    (hseated : ∃ i p, r.players.get? i = some (some p) ∧ p.id = sid) :
    (stepDisconnect r sid now).1.gameState = Phase.paused := by
  obtain ⟨hlen, hconn, hwait, hts, hpl, hcomp, hpause, hsc⟩ := reachable_inv r hr
  have hall := hconn hphase
  obtain ⟨i, p, hget, hid⟩ := hseated
  have hfind : (r.players.findIdx? fun op =>
      op.any fun q => decide (q.id = sid)).isSome = true := by
    rw [List.findIdx?_isSome]
    refine List.any_eq_true.mpr ⟨some p, List.get?_mem hget, ?_⟩
    simp [Option.any, hid]
  obtain ⟨j, hj⟩ := Option.isSome_iff_exists.mp hfind
  have hjpred := List.findIdx?_of_eq_some hj
  have hgq : ∃ q : Player, r.players.get? j = some (some q) := by
    rw [List.get?_eq_getElem?]
    cases hga : r.players[j]? with
    | none => rw [hga] at hjpred; cases hjpred
    | some a =>
      rw [hga] at hjpred
      cases a with
      | none => simp [Option.any] at hjpred
      | some q => exact ⟨q, rfl⟩
  obtain ⟨q, hq⟩ := hgq
  unfold stepDisconnect
  rw [hj]
  dsimp only
  rw [hq]
  dsimp only
  rw [if_pos]
  · constructor
    · exact hphase.symm
    · obtain ⟨q2, hq2mem, hq2c⟩ := connected_remains hlen hall j
        { q with connected := false, lastSeen := now }
      exact connectedCount_pos hq2mem hq2c

/-- C8 witness: the room right after four joins is reachable and in
`trump_selection`; the seat-3 player's disconnect pauses it. -/
theorem C8_disconnect_pauses_witness :
    ((runEvents joinEvents (initializeRoom 1 0)).gameState =
        Phase.trump_selection ∨
      (runEvents joinEvents (initializeRoom 1 0)).gameState =
        Phase.playing) ∧
    (stepDisconnect (runEvents joinEvents (initializeRoom 1 0)) 4
        77).1.gameState = Phase.paused :=
  ⟨Or.inl (by decide),
    C8_disconnect_pauses (runEvents joinEvents (initializeRoom 1 0))
      ⟨1, 0, joinEvents, rfl⟩ (Or.inl (by decide)) 4 77
      ⟨3, ⟨4, 104, Team.B, [], true, 3, 0⟩, by decide, by decide⟩⟩

set_option maxHeartbeats 2000000 in
/-- C5: from any reachable room, when a `playCard` step emits the `gameOver`
notification, the room has moved to the `completed` phase, the two teams'
final scores are unequal (so the "Tie" outcome is unreachable), and the
announced winner — the side with the higher score — is exactly the team that
was awarded points by the triggering deal. -/
theorem C5_gameOver_winner (r : Room) (hr : Reachable r) (sid idx now : Nat)
    (r2 : Room) (outs : List Output)
    (hstep : stepPlayCard r sid idx now = (r2, outs))
    (w : String) (fs : Scores) (res : Option RoundResult)
    (hmem : Output.gameOver w fs res ∈ outs) :
    r2.gameState = Phase.completed ∧
    r2.scores.teamA ≠ r2.scores.teamB ∧
    ∃ rr, res = some rr ∧
      ((rr.winningTeam = some Team.A ∧ w = "Team A") ∨
        (rr.winningTeam = some Team.B ∧ w = "Team B")) := by
  obtain ⟨hlen, hconn, hwait, hts, hpl, hcomp, hpause, hsc⟩ := reachable_inv r hr
  unfold stepPlayCard at hstep
  split at hstep
  · injection hstep with h1 h2; subst h1; subst h2; simp at hmem
  case isFalse hphase =>
    have hplay : r.gameState = Phase.playing := by
      by_contra hx
      exact hphase hx
    have hsc2 := hsc (by rw [hplay]; simp)
    split at hstep
    · injection hstep with h1 h2; subst h1; subst h2; simp at hmem
    case _ playerIndex hfind =>
      split at hstep
      · injection hstep with h1 h2; subst h1; subst h2; simp at hmem
      case isFalse hturn =>
        split at hstep
        case _ player hget =>
          split at hstep
          · injection hstep with h1 h2; subst h1; subst h2; simp at hmem
          case _ card hcard =>
            split at hstep
            · injection hstep with h1 h2; subst h1; subst h2; simp at hmem
            case isFalse hvalid =>
              dsimp only at hstep
              split at hstep
              case isTrue hfour =>
                split at hstep
                case _ winner hwin =>
                  set room4 : Room :=
                    { r with
                        lastActivity := now
                        currentTrick := []
                        players := r.players.set playerIndex
                          (some { player with
                                    hand := player.hand.set idx none })
                        tricksWon := (r.tricksWon.set winner.playerIndex
                          (r.tricksWon.getD winner.playerIndex 0 + 1))
                        currentPlayerIndex := winner.playerIndex
                        lastTrickWinner := (winner.playerIndex : Int) }
                    with hroom4
                  have hs4 : room4.scores = r.scores := rfl
                  split at hstep
                  case isTrue hgc =>
                    injection hstep with h1 h2
                    subst h1
                    subst h2
                    rw [List.mem_singleton] at hmem
                    injection hmem with hw hfs hres
                    by_cases h8 : tricksSum room4.tricksWon ≥ 8
                    · obtain ⟨hrc, hpc⟩ := checkRoundComplete_phase room4 h8
                      rcases hpc with ⟨_, hgs, _, hge⟩ | ⟨hgc2, _⟩
                      swap
                      · rw [hgc2] at hgc
                        cases hgc
                      obtain ⟨rr0, hrr0, _, _, _, hcase⟩ :=
                        checkRoundComplete_award room4 h8
                      rw [hs4] at hcase
                      rcases hcase with ⟨_, hwinA, _, hscA⟩ |
                        ⟨_, hwinB, _, hscB⟩ | ⟨_, _, _, hscT⟩
                      · rw [hscA] at hge
                        dsimp only at hge
                        have hA10 : r.scores.teamA + rr0.pointsAwarded ≥ 10 := by
                          rcases hge with hx | hx
                          · exact hx
                          · omega
                        refine ⟨hgs, ?_, rr0, hres.trans hrr0, Or.inl ⟨hwinA, ?_⟩⟩
                        · rw [hscA]
                          dsimp only
                          omega
                        · rw [hscA] at hw
                          dsimp only at hw
                          rw [if_pos (by omega)] at hw
                          exact hw
                      · rw [hscB] at hge
                        dsimp only at hge
                        have hB10 : r.scores.teamB + rr0.pointsAwarded ≥ 10 := by
                          rcases hge with hx | hx
                          · omega
                          · exact hx
                        refine ⟨hgs, ?_, rr0, hres.trans hrr0, Or.inr ⟨hwinB, ?_⟩⟩
                        · rw [hscB]
                          dsimp only
                          omega
                        · rw [hscB] at hw
                          dsimp only at hw
                          rw [if_neg (by omega), if_pos (by omega)] at hw
                          exact hw
                      · exfalso
                        rw [hscT] at hge
                        omega
                    · rw [checkRoundComplete_incomplete room4 h8] at hgc
                      cases hgc
                  case isFalse hgc =>
                    injection hstep with h1 h2
                    subst h1
                    subst h2
                    simp at hmem
                case _ =>
                  injection hstep with h1 h2; subst h1; subst h2; simp at hmem
              case isFalse =>
                injection hstep with h1 h2; subst h1; subst h2; simp at hmem
        · injection hstep with h1 h2; subst h1; subst h2; simp at hmem

set_option maxRecDepth 400000 in
/-- C5 witness: the final card of the scripted match triggers `gameOver` with
winner "Team A", matching the round's awarded team, in a completed room with
unequal scores. -/
theorem C5_gameOver_winner_witness :
    (stepPlayCard omiPenultimateRoom 4 7 0).1.gameState = Phase.completed ∧
    (stepPlayCard omiPenultimateRoom 4 7 0).1.scores.teamA ≠
      (stepPlayCard omiPenultimateRoom 4 7 0).1.scores.teamB ∧
    ∃ rr, (some (⟨some Team.A, 2, 8, 0, Team.B, Team.A⟩ : RoundResult) :
        Option RoundResult) = some rr ∧
      ((rr.winningTeam = some Team.A ∧ "Team A" = "Team A") ∨
        (rr.winningTeam = some Team.B ∧ "Team A" = "Team B")) :=
  C5_gameOver_winner omiPenultimateRoom ⟨1, 0, fullMatchScript.dropLast, rfl⟩
    4 7 0 (stepPlayCard omiPenultimateRoom 4 7 0).1
    (stepPlayCard omiPenultimateRoom 4 7 0).2 rfl "Team A" ⟨11, 0⟩
    (some ⟨some Team.A, 2, 8, 0, Team.B, Team.A⟩) (by decide)

theorem set_get?_eq {α : Type} (l : List α) (n : Nat) (a : α)
    (h : l.get? n = some a) : l.set n a = l := by
  apply List.ext_get?
  intro m
  by_cases hm : n = m
  · subst hm
    rw [List.get?_set_eq, h]
    rfl
  · exact List.get?_set_ne _ _ hm

/-- C9: a reconnect join that matches a disconnected seat by name succeeds,
rebinds only that seat's connection id, connected flag and last-seen time
(plus the room's last-activity time), leaves the seat's hand, name, team and
position and the room's phase, trump, trick, scores and trick counters
unchanged, and the snapshot built for the reconnected player reports exactly
that unchanged state, including the legal-play set when it is that seat's
turn in the playing phase. -/
theorem C9_reconnect_rebind (room : Room) (pd : PlayerData) (team : Team)
    (now : Nat) (i : Nat) (p : Player)
    (hfind : room.players.findIdx?
      (fun op => op.any fun q => decide (q.name = pd.name) && !q.connected) =
        some i)
    (hget : room.players.get? i = some (some p)) :
    (addPlayerToRoom room pd team true now).2.success = true ∧
    (addPlayerToRoom room pd team true now).2.isReconnection = true ∧
    (addPlayerToRoom room pd team true now).2.position = some i ∧
    (addPlayerToRoom room pd team true now).1.players.get? i =
      some (some { p with id := pd.id, connected := true, lastSeen := now }) ∧
    (∀ j, j ≠ i → (addPlayerToRoom room pd team true now).1.players.get? j =
      room.players.get? j) ∧
    (addPlayerToRoom room pd team true now).1.gameState = room.gameState ∧
    (addPlayerToRoom room pd team true now).1.trump = room.trump ∧
    (addPlayerToRoom room pd team true now).1.currentTrick =
      room.currentTrick ∧
    (addPlayerToRoom room pd team true now).1.scores = room.scores ∧
    (addPlayerToRoom room pd team true now).1.tricksWon = room.tricksWon ∧
    (addPlayerToRoom room pd team true now).1.currentPlayerIndex =
      room.currentPlayerIndex ∧
    (addPlayerToRoom room pd team true now).1.trumpSelector =
      room.trumpSelector ∧
    (addPlayerToRoom room pd team true now).1.deck = room.deck ∧
    (addPlayerToRoom room pd team true now).1.lastActivity = now ∧
    (∃ snap, getFullGameStateForPlayer
        (addPlayerToRoom room pd team true now).1 i = some snap ∧
      snap.gameState = room.gameState ∧ snap.trump = room.trump ∧
      snap.hand = p.hand ∧ snap.currentTrick = room.currentTrick ∧
      snap.scores = room.scores ∧ snap.tricksWon = room.tricksWon ∧
      snap.position = i ∧
      snap.playerNames = room.players.map (Option.map Player.name) ∧
      (room.currentPlayerIndex = i ∧ room.gameState = Phase.playing →
        snap.isYourTurn = true ∧
        snap.playableCards =
          getPlayableCards p.hand room.currentTrick room.trump)) := by
  have hadd : addPlayerToRoom room pd team true now =
      ({ room with
          lastActivity := now
          players := room.players.set i
            (some { p with
                      id := pd.id, connected := true, lastSeen := now }) },
       { success := true, message := none, position := some i,
         isReconnection := true }) := by
    unfold addPlayerToRoom
    dsimp only
    rw [if_pos rfl, hfind]
    dsimp only
    rw [hget]
  rw [hadd]
  dsimp only
  have hset : (room.players.set i
      (some { p with
                id := pd.id, connected := true, lastSeen := now })).get? i =
      some (some { p with
                     id := pd.id, connected := true, lastSeen := now }) := by
    rw [List.get?_set_eq, hget]
    rfl
  refine ⟨rfl, rfl, rfl, hset, ?_, rfl, rfl, rfl, rfl, rfl, rfl, rfl, rfl,
    rfl, ?_⟩
  · intro j hj
    exact List.get?_set_ne _ _ (Ne.symm hj)
  · unfold getFullGameStateForPlayer
    dsimp only
    rw [hset]
    dsimp only
    refine ⟨_, rfl, rfl, rfl, rfl, rfl, rfl, rfl, rfl, ?_, ?_⟩
    · rw [List.map_set]
      apply set_get?_eq
      rw [List.get?_map, hget]
      rfl
    · rintro ⟨hcpi, hgs⟩
      constructor
      · simp [hcpi, hgs]
      · rw [if_pos ⟨hcpi, hgs⟩]

/-- Closed form of a non-reconnect join. -/
theorem addPlayerToRoom_false_eq (room : Room) (pd : PlayerData)
    (team : Team) (now : Nat) :
    addPlayerToRoom room pd team false now =
      (match findPositionForTeam { room with lastActivity := now } team with
       | none =>
         ({ room with lastActivity := now },
          { success := false, message := some "Room is full",
            position := none, isReconnection := false })
       | some position =>
         if (room.players.filter fun op => op.any (·.connected)).any
              (fun op => op.any fun p => decide (p.name = pd.name)) then
           ({ room with lastActivity := now },
            { success := false, message := some "Name already taken",
              position := none, isReconnection := false })
         else
           ({ room with
                lastActivity := now
                players := room.players.set
                  position (some
                    { id := pd.id, name := pd.name,
                      team := getTeamForPosition (position : Int), hand := [],
                      connected := true, position := position,
                      lastSeen := now }) },
            { success := true, message := none, position := some position,
              isReconnection := false })) := by
  unfold addPlayerToRoom
  dsimp only
  rfl

theorem findPositionForTeam_isSome (room : Room) (team : Team)
    (h : ∃ i, i < 4 ∧ seatFree room i = true) :
    ∃ pos, findPositionForTeam room team = some pos := by
  obtain ⟨i, hi, hfree⟩ := h
  unfold findPositionForTeam
  cases team <;>
  · dsimp only [teamPositions]
    split
    case _ p rest heq => exact ⟨p, rfl⟩
    case _ hnilA =>
      split
      case _ p rest heq => exact ⟨p, rfl⟩
      case _ hnilB =>
        exfalso
        have hA := List.filter_eq_nil.mp hnilA
        have hB := List.filter_eq_nil.mp hnilB
        interval_cases i <;> simp_all

/-- C10: a non-reconnect join over a fully occupied room is rejected with
the full-room error and no seat mutation; otherwise a duplicate *connected*
name is rejected with no mutation (a name held only by a disconnected seat
does not trigger this); otherwise the join succeeds into the first free seat
of the preferred team's positions, falling back to the other team's free
seats. -/
theorem C10_join_seating (room : Room) (pd : PlayerData) (team : Team)
    (now : Nat) :
    ((∀ i, i < 4 → ∃ p, room.players.get? i = some (some p) ∧ p.id ≠ 0) →
      (addPlayerToRoom room pd team false now).2.success = false ∧
      (addPlayerToRoom room pd team false now).2.message =
        some "Room is full" ∧
      (addPlayerToRoom room pd team false now).1.players = room.players) ∧
    ((∃ i, i < 4 ∧ seatFree room i = true) →
      (∃ j p, room.players.get? j = some (some p) ∧ p.connected = true ∧
          p.name = pd.name) →
      (addPlayerToRoom room pd team false now).2.success = false ∧
      (addPlayerToRoom room pd team false now).2.message =
        some "Name already taken" ∧
      (addPlayerToRoom room pd team false now).1.players = room.players) ∧
    ((∃ i, i < 4 ∧ seatFree room i = true) →
      (¬ ∃ j p, room.players.get? j = some (some p) ∧ p.connected = true ∧
          p.name = pd.name) →
      ∃ pos, (addPlayerToRoom room pd team false now).2.success = true ∧
        (addPlayerToRoom room pd team false now).2.position = some pos ∧
        (addPlayerToRoom room pd team false now).1.players =
          room.players.set pos (some
            { id := pd.id, name := pd.name,
              team := getTeamForPosition (pos : Int), hand := [],
              connected := true, position := pos, lastSeen := now }) ∧
        ((∃ rest, (teamPositions team).filter (seatFree room) = pos :: rest) ∨
          ((teamPositions team).filter (seatFree room) = [] ∧
            ∃ rest, (teamPositions
                (if team = Team.A then Team.B else Team.A)).filter
              (seatFree room) = pos :: rest))) := by
  rw [addPlayerToRoom_false_eq]
  refine ⟨?_, ?_, ?_⟩
  · intro hocc
    have hfree : ∀ i, i < 4 → seatFree room i = false := by
      intro i hi
      obtain ⟨p, hp, hpid⟩ := hocc i hi
      unfold seatFree
      rw [hp]
      simp [hpid]
    have hpos : findPositionForTeam { room with lastActivity := now } team =
        none := by
      show findPositionForTeam room team = none
      unfold findPositionForTeam
      cases team <;>
        simp [teamPositions, List.filter, hfree 0 (by omega),
          hfree 1 (by omega), hfree 2 (by omega), hfree 3 (by omega)]
    rw [hpos]
    exact ⟨rfl, rfl, rfl⟩
  · intro hsome hdup
    obtain ⟨pos, hpos⟩ := findPositionForTeam_isSome room team hsome
    have hpos2 : findPositionForTeam { room with lastActivity := now } team =
        some pos := hpos
    rw [hpos2]
    obtain ⟨j, p, hget, hconn, hname⟩ := hdup
    have hany : (room.players.filter fun op => op.any (·.connected)).any
        (fun op => op.any fun q => decide (q.name = pd.name)) = true := by
      refine List.any_eq_true.mpr ⟨some p, ?_, ?_⟩
      · exact List.mem_filter.mpr ⟨List.get?_mem hget,
          by simp [Option.any, hconn]⟩
      · simp [Option.any, hname]
    dsimp only
    rw [if_pos hany]
    exact ⟨rfl, rfl, rfl⟩
  · intro hsome hnodup
    obtain ⟨pos, hpos⟩ := findPositionForTeam_isSome room team hsome
    have hpos2 : findPositionForTeam { room with lastActivity := now } team =
        some pos := hpos
    rw [hpos2]
    have hany : (room.players.filter fun op => op.any (·.connected)).any
        (fun op => op.any fun q => decide (q.name = pd.name)) = false := by
      rw [Bool.eq_false_iff]
      intro hx
      obtain ⟨op, hopmem, hopname⟩ := List.any_eq_true.mp hx
      have hfil := List.mem_filter.mp hopmem
      obtain ⟨q, rfl, hqc⟩ := option_any_iff.mp hfil.2
      obtain ⟨q2, heq2, hq2n⟩ := option_any_iff.mp hopname
      obtain rfl : q = q2 := by injection heq2
      obtain ⟨n, hn⟩ := List.get?_of_mem hfil.1
      exact hnodup ⟨n, q, hn, hqc, of_decide_eq_true hq2n⟩
    dsimp only
    have hcond : ¬ ((room.players.filter fun op => op.any (·.connected)).any
        (fun op => op.any fun q => decide (q.name = pd.name)) = true) := by
      rw [hany]
      exact Bool.false_ne_true
    rw [if_neg hcond]
    refine ⟨pos, rfl, rfl, rfl, ?_⟩
    unfold findPositionForTeam at hpos
    dsimp only at hpos
    rcases hf1 : (teamPositions team).filter (seatFree room) with _ | ⟨q, rest⟩
    · rcases hf2 : (teamPositions
          (if team = Team.A then Team.B else Team.A)).filter
          (seatFree room) with _ | ⟨q2, rest2⟩
      · rw [hf1, hf2] at hpos
        dsimp only at hpos
        cases hpos
      · rw [hf1, hf2] at hpos
        dsimp only at hpos
        injection hpos with hq2
        exact Or.inr ⟨rfl, rest2, by rw [← hq2]⟩
    · rw [hf1] at hpos
      dsimp only at hpos
      injection hpos with hq
      exact Or.inl ⟨rest, by rw [← hq]⟩

/-- C10 witness: a join into the empty room takes seat 0 of team A. -/
theorem C10_join_seating_witness :
    (¬ ∃ j p, (initializeRoom 5 0).players.get? j = some (some p) ∧
        p.connected = true ∧ p.name = 42) ∧
    ∃ pos, (addPlayerToRoom (initializeRoom 5 0) ⟨6, 42⟩ Team.A false
        9).2.success = true ∧
      (addPlayerToRoom (initializeRoom 5 0) ⟨6, 42⟩ Team.A false
        9).2.position = some pos ∧
      (addPlayerToRoom (initializeRoom 5 0) ⟨6, 42⟩ Team.A false
        9).1.players = (initializeRoom 5 0).players.set pos (some
          { id := 6, name := 42, team := getTeamForPosition (pos : Int),
            hand := [], connected := true, position := pos, lastSeen := 9 }) ∧
      ((∃ rest, (teamPositions Team.A).filter (seatFree (initializeRoom 5 0))
          = pos :: rest) ∨
        ((teamPositions Team.A).filter (seatFree (initializeRoom 5 0)) = [] ∧
          ∃ rest, (teamPositions
              (if Team.A = Team.A then Team.B else Team.A)).filter
            (seatFree (initializeRoom 5 0)) = pos :: rest)) :=
  have hno : ¬ ∃ j p, (initializeRoom 5 0).players.get? j =
      some (some p) ∧ p.connected = true ∧ p.name = 42 := by
    rintro ⟨j, p, hget, -, -⟩
    rcases j with _ | _ | _ | _ | j <;>
      simp [initializeRoom, List.get?] at hget
  ⟨hno, (C10_join_seating (initializeRoom 5 0) ⟨6, 42⟩ Team.A 9).2.2
    ⟨0, by decide, by decide⟩ hno⟩

/-- C2 witness: a concrete trick where the lone trump 7 beats three aces. -/
theorem C2_getTrickWinner_spec_witness :
    ([(⟨0, 101, Card.mk .clubs .ace⟩ : TrickEntry),
        ⟨1, 102, Card.mk .spades .r7⟩, ⟨2, 103, Card.mk .diamonds .ace⟩,
        ⟨3, 104, Card.mk .hearts .ace⟩] : List TrickEntry).length = 4 ∧
    ∃ w, getTrickWinner
        [(⟨0, 101, Card.mk .clubs .ace⟩ : TrickEntry),
          ⟨1, 102, Card.mk .spades .r7⟩, ⟨2, 103, Card.mk .diamonds .ace⟩,
          ⟨3, 104, Card.mk .hearts .ace⟩] (some Suit.spades) = some w ∧
      w ∈ [(⟨0, 101, Card.mk .clubs .ace⟩ : TrickEntry),
          ⟨1, 102, Card.mk .spades .r7⟩, ⟨2, 103, Card.mk .diamonds .ace⟩,
          ⟨3, 104, Card.mk .hearts .ace⟩] ∧
      w.card.suit = Suit.spades ∧
      ∀ e ∈ [(⟨0, 101, Card.mk .clubs .ace⟩ : TrickEntry),
          ⟨1, 102, Card.mk .spades .r7⟩, ⟨2, 103, Card.mk .diamonds .ace⟩,
          ⟨3, 104, Card.mk .hearts .ace⟩], e.card.suit = Suit.spades →
        getCardValue e.card (some Suit.spades) ≤
          getCardValue w.card (some Suit.spades) :=
  ⟨by decide,
    (C2_getTrickWinner_spec
      [⟨0, 101, Card.mk .clubs .ace⟩, ⟨1, 102, Card.mk .spades .r7⟩,
        ⟨2, 103, Card.mk .diamonds .ace⟩, ⟨3, 104, Card.mk .hearts .ace⟩]
      Suit.spades (by decide)).1
      ⟨⟨1, 102, Card.mk .spades .r7⟩, by decide, by decide⟩⟩

/-- C7: over a fully seated room with a 32-card shuffled deck,
`dealCardsForTrumpSelection` gives the trump selector exactly the first 4
cards of the deck and empties every other hand; the subsequent
`dealRemainingCards` leaves the selector with 8 cards whose first 4 are the
original 4, gives every other seat exactly 8 cards, all drawn from the same
deck, and empties the deck. -/
theorem C7_two_phase_deal (room : Room) (p0 p1 p2 p3 : Player)
    (deck : List Card) (s : Nat)
    (hplayers : room.players = [some p0, some p1, some p2, some p3])
    (hcpi : room.currentPlayerIndex = s) (hs : s < 4)
    (hdeck : deck.length = 32) :
    (∃ q, (dealCardsForTrumpSelection room deck).players.get? s =
        some (some q) ∧ q.hand = (deck.take 4).map some ∧
        q.hand.length = 4) ∧
    (∀ i, i < 4 → i ≠ s →
      ∃ q, (dealCardsForTrumpSelection room deck).players.get? i =
        some (some q) ∧ q.hand = []) ∧
    (dealCardsForTrumpSelection room deck).deck = deck.drop 4 ∧
    (∃ q, (dealRemainingCards
        (dealCardsForTrumpSelection room deck)).players.get? s =
          some (some q) ∧
        q.hand.length = 8 ∧ q.hand.take 4 = (deck.take 4).map some) ∧
    (∀ i, i < 4 →
      ∃ q, (dealRemainingCards
        (dealCardsForTrumpSelection room deck)).players.get? i =
          some (some q) ∧
        q.hand.length = 8 ∧ ∀ c : Card, some c ∈ q.hand → c ∈ deck) ∧
    (dealRemainingCards (dealCardsForTrumpSelection room deck)).deck = [] := by
  interval_cases s
  · -- trump selector at seat 0
    have hr1 : dealCardsForTrumpSelection room deck =
        { room with
            deck := deck.drop 4
            players := [some { p0 with hand := (deck.take 4).map some },
            some { p1 with hand := [] },
            some { p2 with hand := [] },
            some { p3 with hand := [] }] } := by
      simp [dealCardsForTrumpSelection, hplayers, hcpi, List.enum,
        List.enumFrom, List.get?, List.set]
    have hr2 : dealRemainingCards (dealCardsForTrumpSelection room deck) =
        { room with
            deck := deck.drop 32
            players := [some { p0 with hand := (deck.take 4).map some ++ ((deck.drop 4).take 4).map some },
            some { p1 with hand := ((deck.drop 8).take 8).map some },
            some { p2 with hand := ((deck.drop 16).take 8).map some },
            some { p3 with hand := ((deck.drop 24).take 8).map some }] } := by
      rw [hr1]
      simp [dealRemainingCards, hcpi, List.enum, List.enumFrom, List.foldl,
        List.drop_drop]
    refine ⟨⟨{ p0 with hand := (deck.take 4).map some }, by rw [hr1]; rfl, rfl,
      by simp only [List.length_append, List.length_map, List.length_take, List.length_drop, hdeck]; try omega⟩, ?_, by rw [hr1], ?_, ?_, ?_⟩
    · intro i hi hine
      interval_cases i
      · exact absurd rfl hine
      · exact ⟨{ p1 with hand := [] }, by rw [hr1]; rfl, rfl⟩
      · exact ⟨{ p2 with hand := [] }, by rw [hr1]; rfl, rfl⟩
      · exact ⟨{ p3 with hand := [] }, by rw [hr1]; rfl, rfl⟩
    · refine ⟨{ p0 with hand := (deck.take 4).map some ++ ((deck.drop 4).take 4).map some }, by rw [hr2]; rfl, ?_, ?_⟩
      · simp [hdeck] <;> omega
      · have h4 : ((deck.take 4).map some).length = 4 := by simp only [List.length_append, List.length_map, List.length_take, List.length_drop, hdeck]; try omega
        dsimp only
        rw [List.take_append_eq_append_take, h4, Nat.sub_self, List.take_zero,
          List.append_nil]
        exact List.take_of_length_le (le_of_eq h4)
    · intro i hi
      interval_cases i
      · refine ⟨{ p0 with hand := (deck.take 4).map some ++ ((deck.drop 4).take 4).map some }, by rw [hr2]; rfl, by simp only [List.length_append, List.length_map, List.length_take, List.length_drop, hdeck]; try omega, ?_⟩
        intro c hc
        dsimp only at hc
        rcases List.mem_append.mp hc with h | h
        · obtain ⟨a, ha, heq⟩ := List.mem_map.mp h
          obtain rfl : a = c := by injection heq
          exact List.take_subset _ _ ha
        · obtain ⟨a, ha, heq⟩ := List.mem_map.mp h
          obtain rfl : a = c := by injection heq
          exact List.drop_subset _ _ (List.take_subset _ _ ha)
      · refine ⟨{ p1 with hand := ((deck.drop 8).take 8).map some }, by rw [hr2]; rfl, by simp only [List.length_append, List.length_map, List.length_take, List.length_drop, hdeck]; try omega, ?_⟩
        intro c hc
        obtain ⟨a, ha, heq⟩ := List.mem_map.mp hc
        obtain rfl : a = c := by injection heq
        exact List.drop_subset _ _ (List.take_subset _ _ ha)
      · refine ⟨{ p2 with hand := ((deck.drop 16).take 8).map some }, by rw [hr2]; rfl, by simp only [List.length_append, List.length_map, List.length_take, List.length_drop, hdeck]; try omega, ?_⟩
        intro c hc
        obtain ⟨a, ha, heq⟩ := List.mem_map.mp hc
        obtain rfl : a = c := by injection heq
        exact List.drop_subset _ _ (List.take_subset _ _ ha)
      · refine ⟨{ p3 with hand := ((deck.drop 24).take 8).map some }, by rw [hr2]; rfl, by simp only [List.length_append, List.length_map, List.length_take, List.length_drop, hdeck]; try omega, ?_⟩
        intro c hc
        obtain ⟨a, ha, heq⟩ := List.mem_map.mp hc
        obtain rfl : a = c := by injection heq
        exact List.drop_subset _ _ (List.take_subset _ _ ha)
    · rw [hr2]
      have hz : (deck.drop 32).length = 0 := by simp [hdeck]
      exact List.eq_nil_of_length_eq_zero hz
  · -- trump selector at seat 1
    have hr1 : dealCardsForTrumpSelection room deck =
        { room with
            deck := deck.drop 4
            players := [some { p0 with hand := [] },
            some { p1 with hand := (deck.take 4).map some },
            some { p2 with hand := [] },
            some { p3 with hand := [] }] } := by
      simp [dealCardsForTrumpSelection, hplayers, hcpi, List.enum,
        List.enumFrom, List.get?, List.set]
    have hr2 : dealRemainingCards (dealCardsForTrumpSelection room deck) =
        { room with
            deck := deck.drop 32
            players := [some { p0 with hand := ((deck.drop 4).take 8).map some },
            some { p1 with hand := (deck.take 4).map some ++ ((deck.drop 12).take 4).map some },
            some { p2 with hand := ((deck.drop 16).take 8).map some },
            some { p3 with hand := ((deck.drop 24).take 8).map some }] } := by
      rw [hr1]
      simp [dealRemainingCards, hcpi, List.enum, List.enumFrom, List.foldl,
        List.drop_drop]
    refine ⟨⟨{ p1 with hand := (deck.take 4).map some }, by rw [hr1]; rfl, rfl,
      by simp only [List.length_append, List.length_map, List.length_take, List.length_drop, hdeck]; try omega⟩, ?_, by rw [hr1], ?_, ?_, ?_⟩
    · intro i hi hine
      interval_cases i
      · exact ⟨{ p0 with hand := [] }, by rw [hr1]; rfl, rfl⟩
      · exact absurd rfl hine
      · exact ⟨{ p2 with hand := [] }, by rw [hr1]; rfl, rfl⟩
      · exact ⟨{ p3 with hand := [] }, by rw [hr1]; rfl, rfl⟩
    · refine ⟨{ p1 with hand := (deck.take 4).map some ++ ((deck.drop 12).take 4).map some }, by rw [hr2]; rfl, ?_, ?_⟩
      · simp [hdeck] <;> omega
      · have h4 : ((deck.take 4).map some).length = 4 := by simp only [List.length_append, List.length_map, List.length_take, List.length_drop, hdeck]; try omega
        dsimp only
        rw [List.take_append_eq_append_take, h4, Nat.sub_self, List.take_zero,
          List.append_nil]
        exact List.take_of_length_le (le_of_eq h4)
    · intro i hi
      interval_cases i
      · refine ⟨{ p0 with hand := ((deck.drop 4).take 8).map some }, by rw [hr2]; rfl, by simp only [List.length_append, List.length_map, List.length_take, List.length_drop, hdeck]; try omega, ?_⟩
        intro c hc
        obtain ⟨a, ha, heq⟩ := List.mem_map.mp hc
        obtain rfl : a = c := by injection heq
        exact List.drop_subset _ _ (List.take_subset _ _ ha)
      · refine ⟨{ p1 with hand := (deck.take 4).map some ++ ((deck.drop 12).take 4).map some }, by rw [hr2]; rfl, by simp only [List.length_append, List.length_map, List.length_take, List.length_drop, hdeck]; try omega, ?_⟩
        intro c hc
        dsimp only at hc
        rcases List.mem_append.mp hc with h | h
        · obtain ⟨a, ha, heq⟩ := List.mem_map.mp h
          obtain rfl : a = c := by injection heq
          exact List.take_subset _ _ ha
        · obtain ⟨a, ha, heq⟩ := List.mem_map.mp h
          obtain rfl : a = c := by injection heq
          exact List.drop_subset _ _ (List.take_subset _ _ ha)
      · refine ⟨{ p2 with hand := ((deck.drop 16).take 8).map some }, by rw [hr2]; rfl, by simp only [List.length_append, List.length_map, List.length_take, List.length_drop, hdeck]; try omega, ?_⟩
        intro c hc
        obtain ⟨a, ha, heq⟩ := List.mem_map.mp hc
        obtain rfl : a = c := by injection heq
        exact List.drop_subset _ _ (List.take_subset _ _ ha)
      · refine ⟨{ p3 with hand := ((deck.drop 24).take 8).map some }, by rw [hr2]; rfl, by simp only [List.length_append, List.length_map, List.length_take, List.length_drop, hdeck]; try omega, ?_⟩
        intro c hc
        obtain ⟨a, ha, heq⟩ := List.mem_map.mp hc
        obtain rfl : a = c := by injection heq
        exact List.drop_subset _ _ (List.take_subset _ _ ha)
    · rw [hr2]
      have hz : (deck.drop 32).length = 0 := by simp [hdeck]
      exact List.eq_nil_of_length_eq_zero hz
  · -- trump selector at seat 2
    have hr1 : dealCardsForTrumpSelection room deck =
        { room with
            deck := deck.drop 4
            players := [some { p0 with hand := [] },
            some { p1 with hand := [] },
            some { p2 with hand := (deck.take 4).map some },
            some { p3 with hand := [] }] } := by
      simp [dealCardsForTrumpSelection, hplayers, hcpi, List.enum,
        List.enumFrom, List.get?, List.set]
    have hr2 : dealRemainingCards (dealCardsForTrumpSelection room deck) =
        { room with
            deck := deck.drop 32
            players := [some { p0 with hand := ((deck.drop 4).take 8).map some },
            some { p1 with hand := ((deck.drop 12).take 8).map some },
            some { p2 with hand := (deck.take 4).map some ++ ((deck.drop 20).take 4).map some },
            some { p3 with hand := ((deck.drop 24).take 8).map some }] } := by
      rw [hr1]
      simp [dealRemainingCards, hcpi, List.enum, List.enumFrom, List.foldl,
        List.drop_drop]
    refine ⟨⟨{ p2 with hand := (deck.take 4).map some }, by rw [hr1]; rfl, rfl,
      by simp only [List.length_append, List.length_map, List.length_take, List.length_drop, hdeck]; try omega⟩, ?_, by rw [hr1], ?_, ?_, ?_⟩
    · intro i hi hine
      interval_cases i
      · exact ⟨{ p0 with hand := [] }, by rw [hr1]; rfl, rfl⟩
      · exact ⟨{ p1 with hand := [] }, by rw [hr1]; rfl, rfl⟩
      · exact absurd rfl hine
      · exact ⟨{ p3 with hand := [] }, by rw [hr1]; rfl, rfl⟩
    · refine ⟨{ p2 with hand := (deck.take 4).map some ++ ((deck.drop 20).take 4).map some }, by rw [hr2]; rfl, ?_, ?_⟩
      · simp [hdeck] <;> omega
      · have h4 : ((deck.take 4).map some).length = 4 := by simp only [List.length_append, List.length_map, List.length_take, List.length_drop, hdeck]; try omega
        dsimp only
        rw [List.take_append_eq_append_take, h4, Nat.sub_self, List.take_zero,
          List.append_nil]
        exact List.take_of_length_le (le_of_eq h4)
    · intro i hi
      interval_cases i
      · refine ⟨{ p0 with hand := ((deck.drop 4).take 8).map some }, by rw [hr2]; rfl, by simp only [List.length_append, List.length_map, List.length_take, List.length_drop, hdeck]; try omega, ?_⟩
        intro c hc
        obtain ⟨a, ha, heq⟩ := List.mem_map.mp hc
        obtain rfl : a = c := by injection heq
        exact List.drop_subset _ _ (List.take_subset _ _ ha)
      · refine ⟨{ p1 with hand := ((deck.drop 12).take 8).map some }, by rw [hr2]; rfl, by simp only [List.length_append, List.length_map, List.length_take, List.length_drop, hdeck]; try omega, ?_⟩
        intro c hc
        obtain ⟨a, ha, heq⟩ := List.mem_map.mp hc
        obtain rfl : a = c := by injection heq
        exact List.drop_subset _ _ (List.take_subset _ _ ha)
      · refine ⟨{ p2 with hand := (deck.take 4).map some ++ ((deck.drop 20).take 4).map some }, by rw [hr2]; rfl, by simp only [List.length_append, List.length_map, List.length_take, List.length_drop, hdeck]; try omega, ?_⟩
        intro c hc
        dsimp only at hc
        rcases List.mem_append.mp hc with h | h
        · obtain ⟨a, ha, heq⟩ := List.mem_map.mp h
          obtain rfl : a = c := by injection heq
          exact List.take_subset _ _ ha
        · obtain ⟨a, ha, heq⟩ := List.mem_map.mp h
          obtain rfl : a = c := by injection heq
          exact List.drop_subset _ _ (List.take_subset _ _ ha)
      · refine ⟨{ p3 with hand := ((deck.drop 24).take 8).map some }, by rw [hr2]; rfl, by simp only [List.length_append, List.length_map, List.length_take, List.length_drop, hdeck]; try omega, ?_⟩
        intro c hc
        obtain ⟨a, ha, heq⟩ := List.mem_map.mp hc
        obtain rfl : a = c := by injection heq
        exact List.drop_subset _ _ (List.take_subset _ _ ha)
    · rw [hr2]
      have hz : (deck.drop 32).length = 0 := by simp [hdeck]
      exact List.eq_nil_of_length_eq_zero hz
  · -- trump selector at seat 3
    have hr1 : dealCardsForTrumpSelection room deck =
        { room with
            deck := deck.drop 4
            players := [some { p0 with hand := [] },
            some { p1 with hand := [] },
            some { p2 with hand := [] },
            some { p3 with hand := (deck.take 4).map some }] } := by
      simp [dealCardsForTrumpSelection, hplayers, hcpi, List.enum,
        List.enumFrom, List.get?, List.set]
    have hr2 : dealRemainingCards (dealCardsForTrumpSelection room deck) =
        { room with
            deck := deck.drop 32
            players := [some { p0 with hand := ((deck.drop 4).take 8).map some },
            some { p1 with hand := ((deck.drop 12).take 8).map some },
            some { p2 with hand := ((deck.drop 20).take 8).map some },
            some { p3 with hand := (deck.take 4).map some ++ ((deck.drop 28).take 4).map some }] } := by
      rw [hr1]
      simp [dealRemainingCards, hcpi, List.enum, List.enumFrom, List.foldl,
        List.drop_drop]
    refine ⟨⟨{ p3 with hand := (deck.take 4).map some }, by rw [hr1]; rfl, rfl,
      by simp only [List.length_append, List.length_map, List.length_take, List.length_drop, hdeck]; try omega⟩, ?_, by rw [hr1], ?_, ?_, ?_⟩
    · intro i hi hine
      interval_cases i
      · exact ⟨{ p0 with hand := [] }, by rw [hr1]; rfl, rfl⟩
      · exact ⟨{ p1 with hand := [] }, by rw [hr1]; rfl, rfl⟩
      · exact ⟨{ p2 with hand := [] }, by rw [hr1]; rfl, rfl⟩
      · exact absurd rfl hine
    · refine ⟨{ p3 with hand := (deck.take 4).map some ++ ((deck.drop 28).take 4).map some }, by rw [hr2]; rfl, ?_, ?_⟩
      · simp [hdeck] <;> omega
      · have h4 : ((deck.take 4).map some).length = 4 := by simp only [List.length_append, List.length_map, List.length_take, List.length_drop, hdeck]; try omega
        dsimp only
        rw [List.take_append_eq_append_take, h4, Nat.sub_self, List.take_zero,
          List.append_nil]
        exact List.take_of_length_le (le_of_eq h4)
    · intro i hi
      interval_cases i
      · refine ⟨{ p0 with hand := ((deck.drop 4).take 8).map some }, by rw [hr2]; rfl, by simp only [List.length_append, List.length_map, List.length_take, List.length_drop, hdeck]; try omega, ?_⟩
        intro c hc
        obtain ⟨a, ha, heq⟩ := List.mem_map.mp hc
        obtain rfl : a = c := by injection heq
        exact List.drop_subset _ _ (List.take_subset _ _ ha)
      · refine ⟨{ p1 with hand := ((deck.drop 12).take 8).map some }, by rw [hr2]; rfl, by simp only [List.length_append, List.length_map, List.length_take, List.length_drop, hdeck]; try omega, ?_⟩
        intro c hc
        obtain ⟨a, ha, heq⟩ := List.mem_map.mp hc
        obtain rfl : a = c := by injection heq
        exact List.drop_subset _ _ (List.take_subset _ _ ha)
      · refine ⟨{ p2 with hand := ((deck.drop 20).take 8).map some }, by rw [hr2]; rfl, by simp only [List.length_append, List.length_map, List.length_take, List.length_drop, hdeck]; try omega, ?_⟩
        intro c hc
        obtain ⟨a, ha, heq⟩ := List.mem_map.mp hc
        obtain rfl : a = c := by injection heq
        exact List.drop_subset _ _ (List.take_subset _ _ ha)
      · refine ⟨{ p3 with hand := (deck.take 4).map some ++ ((deck.drop 28).take 4).map some }, by rw [hr2]; rfl, by simp only [List.length_append, List.length_map, List.length_take, List.length_drop, hdeck]; try omega, ?_⟩
        intro c hc
        dsimp only at hc
        rcases List.mem_append.mp hc with h | h
        · obtain ⟨a, ha, heq⟩ := List.mem_map.mp h
          obtain rfl : a = c := by injection heq
          exact List.take_subset _ _ ha
        · obtain ⟨a, ha, heq⟩ := List.mem_map.mp h
          obtain rfl : a = c := by injection heq
          exact List.drop_subset _ _ (List.take_subset _ _ ha)
    · rw [hr2]
      have hz : (deck.drop 32).length = 0 := by simp [hdeck]
      exact List.eq_nil_of_length_eq_zero hz

/-- C7 witness: the two-phase deal over a concrete fully seated room with the
unshuffled 32-card deck. -/
theorem C7_two_phase_deal_witness :
    createDeck.length = 32 ∧
    ((∃ q, (dealCardsForTrumpSelection roomFourSeats createDeck).players.get?
          0 = some (some q) ∧ q.hand = (createDeck.take 4).map some ∧
        q.hand.length = 4) ∧
    (∀ i, i < 4 → i ≠ 0 →
      ∃ q, (dealCardsForTrumpSelection roomFourSeats createDeck).players.get?
        i = some (some q) ∧ q.hand = []) ∧
    (dealCardsForTrumpSelection roomFourSeats createDeck).deck =
      createDeck.drop 4 ∧
    (∃ q, (dealRemainingCards
        (dealCardsForTrumpSelection roomFourSeats createDeck)).players.get? 0 =
          some (some q) ∧
        q.hand.length = 8 ∧ q.hand.take 4 = (createDeck.take 4).map some) ∧
    (∀ i, i < 4 →
      ∃ q, (dealRemainingCards
        (dealCardsForTrumpSelection roomFourSeats createDeck)).players.get? i =
          some (some q) ∧
        q.hand.length = 8 ∧ ∀ c : Card, some c ∈ q.hand → c ∈ createDeck) ∧
    (dealRemainingCards
      (dealCardsForTrumpSelection roomFourSeats createDeck)).deck = []) :=
  ⟨by decide, C7_two_phase_deal roomFourSeats ⟨1, 1, Team.A, [], true, 0, 0⟩
    ⟨2, 2, Team.B, [], true, 1, 0⟩ ⟨3, 3, Team.A, [], true, 2, 0⟩
    ⟨4, 4, Team.B, [], true, 3, 0⟩ createDeck 0 rfl rfl (by decide)
    (by decide)⟩


/-- C9 witness: a concrete reconnection into `roomReconnect`. -/
theorem C9_reconnect_rebind_witness :
    (addPlayerToRoom roomReconnect ⟨9, 7⟩ Team.A true 50).2.success = true ∧
    (addPlayerToRoom roomReconnect ⟨9, 7⟩ Team.A true 50).2.isReconnection =
      true ∧
    (addPlayerToRoom roomReconnect ⟨9, 7⟩ Team.A true 50).2.position =
      some 0 ∧
    (addPlayerToRoom roomReconnect ⟨9, 7⟩ Team.A true 50).1.players.get? 0 =
      some (some ⟨9, 7, Team.A, [some (Card.mk .hearts .ace), none], true, 0,
        50⟩) ∧
    (∀ j, j ≠ 0 →
      (addPlayerToRoom roomReconnect ⟨9, 7⟩ Team.A true 50).1.players.get? j =
        roomReconnect.players.get? j) ∧
    (addPlayerToRoom roomReconnect ⟨9, 7⟩ Team.A true 50).1.gameState =
      roomReconnect.gameState ∧
    (addPlayerToRoom roomReconnect ⟨9, 7⟩ Team.A true 50).1.trump =
      roomReconnect.trump ∧
    (addPlayerToRoom roomReconnect ⟨9, 7⟩ Team.A true 50).1.currentTrick =
      roomReconnect.currentTrick ∧
    (addPlayerToRoom roomReconnect ⟨9, 7⟩ Team.A true 50).1.scores =
      roomReconnect.scores ∧
    (addPlayerToRoom roomReconnect ⟨9, 7⟩ Team.A true 50).1.tricksWon =
      roomReconnect.tricksWon ∧
    (addPlayerToRoom roomReconnect ⟨9, 7⟩ Team.A true
      50).1.currentPlayerIndex = roomReconnect.currentPlayerIndex ∧
    (addPlayerToRoom roomReconnect ⟨9, 7⟩ Team.A true 50).1.trumpSelector =
      roomReconnect.trumpSelector ∧
    (addPlayerToRoom roomReconnect ⟨9, 7⟩ Team.A true 50).1.deck =
      roomReconnect.deck ∧
    (addPlayerToRoom roomReconnect ⟨9, 7⟩ Team.A true 50).1.lastActivity =
      50 ∧
    (∃ snap, getFullGameStateForPlayer
        (addPlayerToRoom roomReconnect ⟨9, 7⟩ Team.A true 50).1 0 =
          some snap ∧
      snap.gameState = roomReconnect.gameState ∧
      snap.trump = roomReconnect.trump ∧
      snap.hand = [some (Card.mk .hearts .ace), none] ∧
      snap.currentTrick = roomReconnect.currentTrick ∧
      snap.scores = roomReconnect.scores ∧
      snap.tricksWon = roomReconnect.tricksWon ∧
      snap.position = 0 ∧
      snap.playerNames = roomReconnect.players.map (Option.map Player.name) ∧
      (roomReconnect.currentPlayerIndex = 0 ∧
          roomReconnect.gameState = Phase.playing →
        snap.isYourTurn = true ∧
        snap.playableCards = getPlayableCards
          [some (Card.mk .hearts .ace), none] roomReconnect.currentTrick
          roomReconnect.trump)) :=
  C9_reconnect_rebind roomReconnect ⟨9, 7⟩ Team.A 50 0
    ⟨1, 7, Team.A, [some (Card.mk .hearts .ace), none], false, 0, 5⟩
    (by decide) (by decide)

end Omi
